import Mathlib

/-!
Verification of the dose-response curve-fitting core (`assets/js/models.js`)
of the ddr-demo repository, against its natural-language specification.

Embedding conventions:
* JavaScript numbers are modelled as rationals (`ℚ`).  The transcendental
  primitives `Math.log10` and `Math.pow` have no exact rational counterpart,
  so they are abstracted into a record `JSMath` of uninterpreted functions
  that is threaded through every definition that uses them; theorems that
  depend on analytic facts about them (such as `log10 (pow 10 x) = x`)
  take those facts as explicit hypotheses, and concrete witnesses
  instantiate the record with computable functions agreeing with the real
  ones on the inputs touched.
* JavaScript `a || b` on numbers treats `0` as falsy; the helpers
  `jsOrQ`/`jsOrN`/`jsOrS` reproduce that, while `??` (nullish coalescing)
  is `Option.getD`.
* Optional nested configuration objects are `Option` structures, mirroring
  `(config.robust && config.robust.weights) || {}` style access.
* `while` loops without a syntactic bound (`patternSearch`) receive an
  explicit fuel parameter; loops bounded by an iteration cap use that cap
  as fuel.
* The `Math.random()`-driven mesh down-sampling is abstracted into a
  `sample` function argument producing the chosen index list.
-/

namespace DDR

open List

/-- Uninterpreted transcendental primitives of the JavaScript runtime:
`log10` models `Math.log10` and `pow` models `Math.pow`. -/
structure JSMath where
  log10 : ℚ → ℚ
  pow : ℚ → ℚ → ℚ

/-- A data point `{ concentration, viability }` (viability in percent). -/
structure DataPoint where
  concentration : ℚ
  viability : ℚ
deriving DecidableEq, Repr, Inhabited

/-- A `min`/`max` pair for one parameter class of `config.bounds`. -/
structure RangeB where
  min : ℚ
  max : ℚ
deriving DecidableEq, Repr

/-- `config.bounds` from `config.js`. -/
structure Bounds where
  hillSlope : RangeB
  eInf : RangeB
  ec50 : RangeB
deriving DecidableEq, Repr

/-- `config.robust.weights`. -/
structure Weights where
  endpoints : Option ℚ
  midpoint : Option ℚ
  enableMidpointForMonophasic : Option Bool
deriving DecidableEq, Repr

/-- `config.robust`. -/
structure Robust where
  huberDelta : Option ℚ
  weights : Option Weights
deriving DecidableEq, Repr

/-- `config.optimizer`. -/
structure Optimizer where
  maxIterations : Option ℕ
  convergenceTolerance : Option ℚ
  maxGDIter : Option ℕ
  gdAlpha : Option ℚ
  gdEps : Option ℚ
  gdBacktrackingMax : Option ℕ
  improvementTol : Option ℚ
deriving DecidableEq, Repr

/-- `config.mesh`. -/
structure MeshCfg where
  densitiesMono : Option (List ℕ)
  densitiesBiphasic : Option (List ℕ)
  stepScale : Option ℚ
  span : Option ℚ
  precision : Option ℚ
  maxCandidates : Option ℕ
deriving DecidableEq, Repr

/-- `config.fitting`. -/
structure Fitting where
  minPointsForFit : Option ℕ
  emaxMode : Option String
deriving DecidableEq, Repr

/-- `config.initialParams.jitter`. -/
structure JitterCfg where
  eInf : Option ℚ
  other : Option ℚ
deriving DecidableEq, Repr

/-- `config.initialParams`. -/
structure InitialParams where
  jitter : Option JitterCfg
deriving DecidableEq, Repr

/-- The configuration bundle.  `bounds` is always present (every code path
dereferences it unconditionally); all other sections are optional, and the
flat legacy fallbacks (`config.huberDelta`, `config.maxIterations`, ...)
used by the `a.b || a.flat || literal` chains are separate fields. -/
structure Config where
  bounds : Bounds
  fitting : Option Fitting
  optimizer : Option Optimizer
  robust : Option Robust
  mesh : Option MeshCfg
  initialParams : Option InitialParams
  huberDelta : Option ℚ
  maxIterations : Option ℕ
  convergenceTolerance : Option ℚ
  maxGDIter : Option ℕ
  minPointsForFit : Option ℕ
  emaxMode : Option String
deriving DecidableEq, Repr

/-- The fit-type selector: `'biphasic'` or anything else (monophasic). -/
inductive FitType where
  | monophasic
  | biphasic
deriving DecidableEq, Repr

/-- Parameter-vector dimension of a fit type. -/
def FitType.dim : FitType → ℕ
  | .monophasic => 3
  | .biphasic => 6

/-- JavaScript `a || b` for an optional numeric `a` (`0` is falsy). -/
def jsOrQ (a : Option ℚ) (b : ℚ) : ℚ :=
  match a with
  | some v => if v = 0 then b else v
  | none => b

/-- JavaScript `a || b` for an optional count (`0` is falsy). -/
def jsOrN (a : Option ℕ) (b : ℕ) : ℕ :=
  match a with
  | some v => if v = 0 then b else v
  | none => b

/-- JavaScript `a || b` for an optional string (`""` is falsy). -/
def jsOrS (a : Option String) (b : String) : String :=
  match a with
  | some v => if v = "" then b else v
  | none => b

/-- `hillFunction(x, params)` (models.js line 3):
`eInf + (1 - eInf) / (1 + 10^(hs * (log10 x - log10 ec50)))`. -/
def hillFunction (M : JSMath) (x : ℚ) (params : List ℚ) : ℚ :=
  let hs := params.getD 0 0
  let eInf := params.getD 1 0
  let ec50 := params.getD 2 0
  eInf + (1 - eInf) / (1 + M.pow 10 (hs * (M.log10 x - M.log10 ec50)))

/-- `biphasicFunction(x, params)` (line 10): product of the two Hill phases. -/
def biphasicFunction (M : JSMath) (x : ℚ) (params : List ℚ) : ℚ :=
  let phase1 := hillFunction M x [params.getD 0 0, params.getD 1 0, params.getD 2 0]
  let phase2 := hillFunction M x [params.getD 3 0, params.getD 4 0, params.getD 5 0]
  phase1 * phase2

/-- `huberLoss(residual, delta)` (line 17). -/
def huberLoss (residual : ℚ) (delta : ℚ) : ℚ :=
  let a := |residual|
  if a ≤ delta then 0.5 * residual * residual else delta * (a - 0.5 * delta)

/-- `squaredLoss(residual)` (line 22). -/
def squaredLoss (residual : ℚ) : ℚ :=
  residual * residual

/-- `lossByName(name, residual, delta)` (line 26): `'huber'` selects Huber,
anything else (including `'hill'`/`'ols'`) selects squared loss. -/
def lossByName (name : String) (residual : ℚ) (delta : ℚ) : ℚ :=
  if name = "huber" then huberLoss residual delta else squaredLoss residual

/-- The model prediction selected by fit type (the conditional at
models.js lines 71-74). -/
def predict (M : JSMath) (fitType : FitType) (x : ℚ) (params : List ℚ) : ℚ :=
  if fitType = .biphasic then biphasicFunction M x params else hillFunction M x params

/-- Resolution of the Huber delta used by `objectiveFunction` (line 39):
`(config.robust && config.robust.huberDelta) || config.huberDelta || 1.0`. -/
def huberDeltaOf (config : Config) : ℚ :=
  jsOrQ (config.robust.bind Robust.huberDelta) (jsOrQ config.huberDelta 1.0)

/-- The positional weight of point `i` among `n` (models.js lines 78-84):
`weights.endpoints || 10` on the two first and two last indices, overridden
by `weights.midpoint || 10` at index `⌊n/2⌋` for monophasic fits when
`weights.enableMidpointForMonophasic ?? true` holds. -/
def weightFor (config : Config) (fitType : FitType) (n i : ℕ) : ℚ :=
  let weights := config.robust.bind Robust.weights
  let w : ℚ :=
    if i = 0 ∨ i = 1 ∨ i = n - 2 ∨ i = n - 1 then
      jsOrQ (weights.bind Weights.endpoints) 10
    else 1
  if fitType ≠ .biphasic ∧ ((weights.bind Weights.enableMidpointForMonophasic).getD true) ∧
      i = n / 2 then
    jsOrQ (weights.bind Weights.midpoint) 10
  else w

/-- `objectiveFunction(params, dataPoints, fitType, config, algo)`
(models.js lines 37-89): the bounds gate returning `1e12`, then the
weighted per-point loss accumulation.  `inRange(v, lo, hi)` is
`v >= lo && v <= hi`; the JS array destructuring of `params` is modelled
with `getD` (out-of-range reads yield `undefined` in JS; all call sites
pass vectors of the fit type's length). -/
def objectiveFunction (M : JSMath) (params : List ℚ) (dataPoints : List DataPoint)
    (fitType : FitType) (config : Config) (algo : String) : ℚ :=
  let bounds := config.bounds
  let huberDelta := huberDeltaOf config
  let inRange : ℚ → ℚ → ℚ → Bool := fun v lo hi => decide (lo ≤ v ∧ v ≤ hi)
  let ok : Bool :=
    if fitType = .biphasic then
      inRange (params.getD 0 0) bounds.hillSlope.min bounds.hillSlope.max &&
      inRange (params.getD 3 0) bounds.hillSlope.min bounds.hillSlope.max &&
      inRange (params.getD 1 0) bounds.eInf.min bounds.eInf.max &&
      inRange (params.getD 4 0) bounds.eInf.min bounds.eInf.max &&
      inRange (M.log10 (params.getD 2 0)) bounds.ec50.min bounds.ec50.max &&
      inRange (M.log10 (params.getD 5 0)) bounds.ec50.min bounds.ec50.max
    else
      inRange (params.getD 0 0) bounds.hillSlope.min bounds.hillSlope.max &&
      inRange (params.getD 1 0) bounds.eInf.min bounds.eInf.max &&
      inRange (M.log10 (params.getD 2 0)) bounds.ec50.min bounds.ec50.max
  if !ok then (1e12 : ℚ)
  else
    let n := dataPoints.length
    (List.range n).foldl
      (fun total i =>
        let p := dataPoints.getD i default
        let pred := predict M fitType p.concentration params
        let obs := p.viability / 100
        let r := obs - pred
        let w := weightFor config fitType n i
        total + w * lossByName algo r huberDelta)
      0

/-- A simplex vertex `{ point, value }` as kept by `nelderMead`. -/
structure SimplexVertex where
  point : List ℚ
  value : ℚ
deriving DecidableEq, Repr, Inhabited

/-- Insert a vertex after every existing vertex of value `≤` its own:
the insertion step of a stable ascending sort by `value`. -/
def insertByValue (x : SimplexVertex) : List SimplexVertex → List SimplexVertex
  | [] => [x]
  | y :: ys => if y.value ≤ x.value then y :: insertByValue x ys else x :: y :: ys

/-- Stable ascending sort by `value`, modelling
`simplex.sort((a, b) => a.value - b.value)` (JS `Array.prototype.sort`
is stable, and a stable comparison sort is unique). -/
def sortByValue (l : List SimplexVertex) : List SimplexVertex :=
  l.foldl (fun acc x => insertByValue x acc) []

/-- The body of one `nelderMead` iteration (models.js lines 103-148) on
the simplex already sorted ascending by value: reflection, expansion,
contraction or shrink, together with the convergence test
`worst.value - best.value < tolerance` performed at the end of the
iteration (on the mutated worst vertex). -/
def nmUpdate (fn : List ℚ → ℚ) (tolerance : ℚ) (s : List SimplexVertex) :
    List SimplexVertex × Bool :=
  let alpha : ℚ := 1.0
  let gamma : ℚ := 2.0
  let rho : ℚ := 0.5
  let sigma : ℚ := 0.5
  let best := s.headD default
  let worst := s.getLastD default
  let secondWorst := s.getD (s.length - 2) default
  let centroid : List ℚ :=
    (List.range best.point.length).map (fun i =>
      ((s.take (s.length - 1)).foldl (fun acc e => acc + e.point.getD i 0) 0) /
        ((s.length - 1 : ℕ) : ℚ))
  let reflect := centroid.enum.map (fun ci => ci.2 + alpha * (ci.2 - worst.point.getD ci.1 0))
  let fReflect := fn reflect
  if fReflect < best.value then
    let expand := centroid.enum.map (fun ci => ci.2 + gamma * (reflect.getD ci.1 0 - ci.2))
    let fExpand := fn expand
    let newWorst : SimplexVertex :=
      if fExpand < fReflect then ⟨expand, fExpand⟩ else ⟨reflect, fReflect⟩
    (s.dropLast ++ [newWorst], decide (newWorst.value - best.value < tolerance))
  else if fReflect < secondWorst.value then
    (s.dropLast ++ [⟨reflect, fReflect⟩], decide (fReflect - best.value < tolerance))
  else
    let contract := centroid.enum.map (fun ci =>
      if fReflect < worst.value then ci.2 + rho * (reflect.getD ci.1 0 - ci.2)
      else ci.2 + rho * (worst.point.getD ci.1 0 - ci.2))
    let fContract := fn contract
    if fContract < worst.value then
      (s.dropLast ++ [⟨contract, fContract⟩], decide (fContract - best.value < tolerance))
    else
      let shrunk := s.tail.map (fun e =>
        let p := e.point.enum.map (fun ji =>
          best.point.getD ji.1 0 + sigma * (ji.2 - best.point.getD ji.1 0))
        (⟨p, fn p⟩ : SimplexVertex))
      (best :: shrunk,
        decide (((best :: shrunk).getLastD default).value - best.value < tolerance))

/-- One iteration of the `nelderMead` main loop (models.js lines 101-148):
the in-place `simplex.sort((a, b) => a.value - b.value)` (stable),
followed by the update step. -/
def nmIter (fn : List ℚ → ℚ) (tolerance : ℚ) (simplex : List SimplexVertex) :
    List SimplexVertex × Bool :=
  nmUpdate fn tolerance (sortByValue simplex)

/-- The `nelderMead` iteration loop, fuelled by the iteration cap. -/
def nmLoop (fn : List ℚ → ℚ) (tolerance : ℚ) :
    ℕ → List SimplexVertex → List SimplexVertex
  | 0, simplex => simplex
  | fuel + 1, simplex =>
    let next := nmIter fn tolerance simplex
    if next.2 then next.1 else nmLoop fn tolerance fuel next.1

/-- `nelderMead(fn, initialSimplex, config)` (models.js lines 91-153). -/
def nelderMead (fn : List ℚ → ℚ) (initialSimplex : List (List ℚ)) (config : Config) :
    List ℚ :=
  let maxIterations :=
    jsOrN (config.optimizer.bind Optimizer.maxIterations) (jsOrN config.maxIterations 50000)
  let tolerance :=
    jsOrQ (config.optimizer.bind Optimizer.convergenceTolerance)
      (jsOrQ config.convergenceTolerance 1e-6)
  let simplex := initialSimplex.map (fun pt => (⟨pt, fn pt⟩ : SimplexVertex))
  ((sortByValue (nmLoop fn tolerance maxIterations simplex)).headD default).point

/-- `r2ForParams(params, fitType, sortedPoints)` (models.js lines 156-171),
returned as the pair `(sse, r2)`.  For empty input the JS code returns
`{sse: Infinity, r2: -Infinity}`, which has no rational counterpart; that
branch is modelled as `(0, 0)` and is unreachable from
`fitMonophasicForIC50`, the only caller, which requires `≥ 2` points. -/
def r2ForParams (M : JSMath) (params : List ℚ) (fitType : FitType)
    (sortedPoints : List DataPoint) : ℚ × ℚ :=
  if sortedPoints.length = 0 then (0, 0)
  else
    let meanY := (sortedPoints.map DataPoint.viability).sum / (sortedPoints.length : ℚ)
    let ssr := (sortedPoints.map (fun p =>
      (p.viability - predict M fitType p.concentration params * 100) ^ 2)).sum
    let sst := (sortedPoints.map (fun p => (p.viability - meanY) ^ 2)).sum
    (ssr, if sst > 0 then 1 - ssr / sst else 0)

/-- `buildJitteredSimplex(center, fitType, jitter)` (models.js lines 174-185). -/
def buildJitteredSimplex (center : List ℚ) (fitType : FitType) (jitter : ℚ) :
    List (List ℚ) :=
  let dim := if fitType = .biphasic then 6 else 3
  center :: (List.range dim).map (fun j =>
    let localJitter := if j = 1 ∨ j = 4 then min 0.05 jitter else jitter
    center.set j (max 1e-9 (center.getD j 0 * (1 + localJitter))))

/-- The scan for a pair of consecutive fractions bracketing `0.5`
(models.js lines 197-205), over the zipped `(log10 x, fraction)` series;
returns the interpolated crossing or the supplied fallback. -/
def bracketScan (dflt : ℚ) : List (ℚ × ℚ) → ℚ
  | [] => dflt
  | [_] => dflt
  | (x1, y1) :: (x2, y2) :: rest =>
    if (y1 - 0.5) * (y2 - 0.5) ≤ 0 then
      let denom := if y2 - y1 = 0 then 1e-9 else y2 - y1
      x1 + ((0.5 - y1) / denom) * (x2 - x1)
    else bracketScan dflt ((x2, y2) :: rest)

/-- Minimum of a list of rationals with a default for the empty case,
modelling `Math.min(...ys)` (which is `Infinity` on an empty spread; all
uses here are on nonempty data). -/
def listMinD (d : ℚ) : List ℚ → ℚ
  | [] => d
  | y :: ys => ys.foldl min y

/-- Maximum of a list of rationals with a default, for `Math.max(...)`. -/
def listMaxD (d : ℚ) : List ℚ → ℚ
  | [] => d
  | y :: ys => ys.foldl max y

/-- Stable insertion (ascending by a rational key) used to model JS stable
`Array.prototype.sort` with a numeric comparator. -/
def insertByKey {α : Type} (key : α → ℚ) (x : α) : List α → List α
  | [] => [x]
  | y :: ys => if key y ≤ key x then y :: insertByKey key x ys else x :: y :: ys

/-- Stable ascending sort by a rational key. -/
def sortByKey {α : Type} (key : α → ℚ) (l : List α) : List α :=
  l.foldl (fun acc x => insertByKey key x acc) []

/-- `computeGrittyGuess(fitType, sortedPoints, config)` (models.js
lines 189-219). -/
def computeGrittyGuess (M : JSMath) (fitType : FitType)
    (sortedPoints : List DataPoint) (_config : Config) : List ℚ :=
  let xs := sortedPoints.map (fun p => M.log10 p.concentration)
  let ys := sortedPoints.map (fun p => min (max (p.viability / 100) 0) 1)
  let meanLogX := xs.sum / (xs.length : ℚ)
  let eInf := min 0.9 (max 0.0 (listMinD 0 ys * 0.9))
  let logEC50 := bracketScan meanLogX (xs.zip ys)
  let ec50 := max 1e-9 (M.pow 10 logEC50)
  if fitType = .biphasic then
    let sortedX := sortByKey id xs
    let q1 := sortedX.getD (sortedX.length / 4) 0
    let q3 := sortedX.getD (3 * sortedX.length / 4) 0
    let ec1 := max 1e-9 (M.pow 10 q1)
    let ec2 := max 1e-9 (M.pow 10 q3)
    let e2 := min 0.95 (max (eInf + 0.05) 0.0)
    [1.2, eInf, ec1, 1.5, e2, ec2]
  else
    [1.5, eInf, ec50]

/-- `Math.min(hi, Math.max(lo, v))` as used by `projectToBounds`. -/
def clampQ (lo hi v : ℚ) : ℚ := min hi (max lo v)

/-- `projectToBounds(p, fitType, config)` (models.js lines 221-238):
`hillSlope`/`eInf` entries clamped linearly, `ec50` entries clamped in
log10 space and re-exponentiated. -/
def projectToBounds (M : JSMath) (p : List ℚ) (fitType : FitType) (config : Config) :
    List ℚ :=
  let b := config.bounds
  if fitType = .biphasic then
    ((((((p.set 0 (clampQ b.hillSlope.min b.hillSlope.max (p.getD 0 0))).set 1
      (clampQ b.eInf.min b.eInf.max (p.getD 1 0))).set 2
      (M.pow 10 (clampQ b.ec50.min b.ec50.max (M.log10 (p.getD 2 0))))).set 3
      (clampQ b.hillSlope.min b.hillSlope.max (p.getD 3 0))).set 4
      (clampQ b.eInf.min b.eInf.max (p.getD 4 0))).set 5
      (M.pow 10 (clampQ b.ec50.min b.ec50.max (M.log10 (p.getD 5 0)))))
  else
    (((p.set 0 (clampQ b.hillSlope.min b.hillSlope.max (p.getD 0 0))).set 1
      (clampQ b.eInf.min b.eInf.max (p.getD 1 0))).set 2
      (M.pow 10 (clampQ b.ec50.min b.ec50.max (M.log10 (p.getD 2 0)))))

/-- `finiteDiffGrad(obj, p, eps)` (models.js lines 240-250), returning
`(f0, g)`. -/
def finiteDiffGrad (obj : List ℚ → ℚ) (p : List ℚ) (eps : ℚ) : ℚ × List ℚ :=
  let f0 := obj p
  let g := (List.range p.length).map (fun i =>
    let pi := p.getD i 0
    let ppi := pi * (1 + eps) + (if pi = 0 then eps else 0)
    let fi := obj (p.set i ppi)
    (fi - f0) / (ppi - pi))
  (f0, g)

/-- The backtracking line-search `while` loop of `projectedGradDescent`
(models.js lines 265-272), fuelled by `gdBacktrackingMax`; state is
`(alpha, trial, fTrial)`. -/
def backtrackLoop (M : JSMath) (obj : List ℚ → ℚ) (fitType : FitType) (config : Config)
    (p g : List ℚ) (f0 : ℚ) : ℕ → ℚ × List ℚ × ℚ → ℚ × List ℚ × ℚ
  | 0, st => st
  | fuel + 1, (alpha, trial, fTrial) =>
    if fTrial > f0 then
      let alpha' := alpha * 0.5
      let trial' := projectToBounds M
        (p.enum.map (fun ipi => ipi.2 - alpha' * g.getD ipi.1 0)) fitType config
      backtrackLoop M obj fitType config p g f0 fuel (alpha', trial', obj trial')
    else (alpha, trial, fTrial)

/-- The outer iteration loop of `projectedGradDescent` (models.js
lines 257-280); state is `(p, alpha, fPrev)`. -/
def pgdLoop (M : JSMath) (obj : List ℚ → ℚ) (fitType : FitType) (config : Config) :
    ℕ → List ℚ × ℚ × ℚ → List ℚ
  | 0, st => st.1
  | fuel + 1, (p, alpha, fPrev) =>
    let gdEps := jsOrQ (config.optimizer.bind Optimizer.gdEps) 1e-6
    let fg := finiteDiffGrad obj p gdEps
    let f0 := fg.1
    let g := fg.2
    let step := g.map (fun gi => -alpha * gi)
    let trial := projectToBounds M (p.enum.map (fun ipi => ipi.2 + step.getD ipi.1 0))
      fitType config
    let fTrial := obj trial
    let btMax := jsOrN (config.optimizer.bind Optimizer.gdBacktrackingMax) 10
    let bt := backtrackLoop M obj fitType config p g f0 btMax (alpha, trial, fTrial)
    let tol := jsOrQ (config.optimizer.bind Optimizer.improvementTol)
      (jsOrQ config.convergenceTolerance 1e-6)
    if bt.2.2 < fPrev - tol then pgdLoop M obj fitType config fuel (bt.2.1, bt.1, bt.2.2)
    else p

/-- `projectedGradDescent(obj, p0, fitType, config)` (models.js
lines 252-282). -/
def projectedGradDescent (M : JSMath) (obj : List ℚ → ℚ) (p0 : List ℚ)
    (fitType : FitType) (config : Config) : List ℚ :=
  let p := projectToBounds M p0 fitType config
  let alpha := jsOrQ (config.optimizer.bind Optimizer.gdAlpha) 1.0
  let fPrev := obj p
  let maxIter := min 400 (jsOrN (config.optimizer.bind Optimizer.maxGDIter)
    (jsOrN config.maxGDIter 200))
  pgdLoop M obj fitType config maxIter (p, alpha, fPrev)

/-- The per-index bound range used by `meshEval`'s `rangeFor`
(models.js lines 296-307), in log10 space for the `ec50` indices. -/
def rangeFor (b : Bounds) (fitType : FitType) (idx : ℕ) : ℚ × ℚ :=
  if fitType = .biphasic then
    if idx = 0 ∨ idx = 3 then (b.hillSlope.min, b.hillSlope.max)
    else if idx = 1 ∨ idx = 4 then (b.eInf.min, b.eInf.max)
    else if idx = 2 ∨ idx = 5 then (b.ec50.min, b.ec50.max)
    else (0, 1)
  else
    if idx = 0 then (b.hillSlope.min, b.hillSlope.max)
    else if idx = 1 then (b.eInf.min, b.eInf.max)
    else if idx = 2 then (b.ec50.min, b.ec50.max)
    else (0, 1)

/-- The grid levels of `meshEval` (models.js lines 308-313): for density `d`
over `[lo, hi]`, the `d + 1` evenly spaced values `lo + (k/d)·(hi - lo)`. -/
def meshLevels (b : Bounds) (fitType : FitType) (densities : List ℕ) : List (List ℚ) :=
  densities.enum.map (fun id' =>
    let lo := (rangeFor b fitType id'.1).1
    let hi := (rangeFor b fitType id'.1).2
    (List.range (id'.2 + 1)).map (fun k => lo + ((k : ℚ) / (id'.2 : ℚ)) * (hi - lo)))

/-- The depth-first cartesian product of the grid levels, in the order
produced by `buildCandidates` (models.js lines 315-330). -/
def cartesianLevels : List (List ℚ) → List (List ℚ)
  | [] => [[]]
  | l :: rest => l.flatMap (fun v => (cartesianLevels rest).map (fun tail => v :: tail))

/-- The result record of `meshEval`. -/
structure MeshResult where
  best : List ℚ
  steps : List ℚ
  span : ℚ
  precision : ℚ
deriving DecidableEq, Repr

/-- The resolved mesh densities of `meshEval` (models.js lines 287-291):
`(config.mesh && config.mesh.densitiesMono) || [2, 10, 5]` and the
biphasic analogue (arrays are only falsy in JS when absent). -/
def densitiesOf (config : Config) (fitType : FitType) : List ℕ :=
  if fitType = .biphasic then
    (config.mesh.bind MeshCfg.densitiesBiphasic).getD [2, 10, 5, 2, 10, 5]
  else (config.mesh.bind MeshCfg.densitiesMono).getD [2, 10, 5]

/-- The candidate grid of `meshEval` (models.js lines 314-330): the
cartesian product of the levels, each completed vector's `ec50` entries
exponentiated from log space, then projected into bounds. -/
def meshGrid (M : JSMath) (config : Config) (fitType : FitType) : List (List ℚ) :=
  (cartesianLevels (meshLevels config.bounds fitType (densitiesOf config fitType))).map
    (fun pre =>
      let p :=
        if fitType = .biphasic then
          (pre.set 2 (M.pow 10 (pre.getD 2 0))).set 5 (M.pow 10 (pre.getD 5 0))
        else pre.set 2 (M.pow 10 (pre.getD 2 0))
      projectToBounds M p fitType config)

/-- The down-sampled candidate list of `meshEval` (models.js
lines 331-338).  The `Math.random()`-driven draw that fires when the grid
exceeds `maxCandidates` is abstracted by `sample`, which receives the cap
and the grid size and returns the list of chosen indices (the JS code
draws indices `< grid.length` into a `Set` until `maxCandidates` are
collected). -/
def meshCandidates (M : JSMath) (sample : ℕ → ℕ → List ℕ) (config : Config)
    (fitType : FitType) : List (List ℚ) :=
  let grid := meshGrid M config fitType
  let maxCands := jsOrN (config.mesh.bind MeshCfg.maxCandidates) 5000
  if grid.length > maxCands then
    (sample maxCands grid.length).map (fun i => grid.getD i [])
  else grid

/-- `meshEval(fitType, guess, sortedPoints, config, algo)` (models.js
lines 284-348). -/
def meshEval (M : JSMath) (sample : ℕ → ℕ → List ℕ) (fitType : FitType)
    (guess : List ℚ) (sortedPoints : List DataPoint) (config : Config)
    (algo : String) : MeshResult :=
  let stepScale := jsOrQ (config.mesh.bind MeshCfg.stepScale) 0.5
  let steps := (densitiesOf config fitType).map (fun d => stepScale / (d : ℚ))
  let obj := fun p => objectiveFunction M p sortedPoints fitType config algo
  let best := (meshCandidates M sample config fitType).foldl
    (fun best cand => if obj cand < best.2 then (cand, obj cand) else best)
    (guess, obj guess)
  { best := best.1
    steps := steps
    span := jsOrQ (config.mesh.bind MeshCfg.span) 1.0
    precision := jsOrQ (config.mesh.bind MeshCfg.precision) 1e-4 }

/-- One full sweep of the `patternSearch` inner `for` loops (models.js
lines 355-369): every dimension, directions `+1` then `-1`, accepting each
strict improvement immediately; state is `(guess, guessVal, improved)`. -/
def psSweep (M : JSMath) (obj : List ℚ → ℚ) (fitType : FitType) (config : Config)
    (steps : List ℚ) (span : ℚ) (st0 : List ℚ × ℚ × Bool) : List ℚ × ℚ × Bool :=
  (List.range st0.1.length).foldl
    (fun st i =>
      [(1 : ℚ), -1].foldl
        (fun st dir =>
          let trial := projectToBounds M
            (st.1.set i (st.1.getD i 0 + dir * span * steps.getD i 0)) fitType config
          let v := obj trial
          if v < st.2.1 then (trial, v, true) else st)
        st)
    st0

/-- The `while (span > precision)` loop of `patternSearch`, fuelled
(the JS loop has no syntactic iteration bound). -/
def psLoop (M : JSMath) (obj : List ℚ → ℚ) (fitType : FitType) (config : Config)
    (steps : List ℚ) (precision : ℚ) : ℕ → ℚ → List ℚ → ℚ → List ℚ
  | 0, _, guess, _ => guess
  | fuel + 1, span, guess, guessVal =>
    if span > precision then
      let sw := psSweep M obj fitType config steps span (guess, guessVal, false)
      if sw.2.2 then psLoop M obj fitType config steps precision fuel span sw.1 sw.2.1
      else psLoop M obj fitType config steps precision fuel (span * 0.5) sw.1 sw.2.1
    else guess

/-- `patternSearch(fitType, start, sortedPoints, config, algo, steps, span,
precision)` (models.js lines 350-373), with explicit fuel. -/
def patternSearch (M : JSMath) (fuel : ℕ) (fitType : FitType) (start : List ℚ)
    (sortedPoints : List DataPoint) (config : Config) (algo : String)
    (steps : List ℚ) (span : ℚ) (precision : ℚ) : List ℚ :=
  let obj := fun p => objectiveFunction M p sortedPoints fitType config algo
  psLoop M obj fitType config steps precision fuel span start (obj start)

/-- `fitCase1Strategy(fitType, sortedPoints, config, algo)` (models.js
lines 375-393): gritty guess, projected-gradient attempt, and the mesh +
pattern-search fallback when the improvement is insufficient. -/
def fitCase1Strategy (M : JSMath) (sample : ℕ → ℕ → List ℕ) (fuel : ℕ)
    (fitType : FitType) (sortedPoints : List DataPoint) (config : Config)
    (algo : String) : List ℚ :=
  let obj := fun p => objectiveFunction M p sortedPoints fitType config algo
  let guess := computeGrittyGuess M fitType sortedPoints config
  let guessVal := obj guess
  let pGD := projectedGradDescent M obj guess fitType config
  let pGDVal := obj pGD
  let current := if pGDVal < guessVal then pGD else guess
  let currentVal := min pGDVal guessVal
  let tol := jsOrQ (config.optimizer.bind Optimizer.improvementTol) 1e-6
  if ¬ (currentVal < guessVal * (1 - tol)) then
    let r := meshEval M sample fitType guess sortedPoints config algo
    patternSearch M fuel fitType r.best sortedPoints config algo r.steps r.span r.precision
  else current

/-- A fitted curve `{ type, params }`. -/
structure FittedCurve where
  type : FitType
  params : List ℚ
deriving DecidableEq, Repr

/-- The metrics record; `none` models JS `null`. -/
structure Metrics where
  rSquared : Option ℚ
  ic50 : Option ℚ
  auc : Option ℚ
  emax : Option ℚ
deriving DecidableEq, Repr

/-- Resolution of `minPointsForFit` used by `calculateMetrics` (line 396):
`(config.fitting && config.fitting.minPointsForFit) || config.minPointsForFit || 5`. -/
def minPtsOf (config : Config) : ℕ :=
  jsOrN (config.fitting.bind Fitting.minPointsForFit) (jsOrN config.minPointsForFit 5)

/-- `calculateMetrics(fittedCurve, sortedPoints, config, algo,
fitMonophasicForIC50Fn)` (models.js lines 395-445).  The injected IC50
helper is `fitFn`. -/
def calculateMetrics (M : JSMath) (fittedCurve : Option FittedCurve)
    (sortedPoints : List DataPoint) (config : Config) (algo : String)
    (fitFn : List DataPoint → Config → String → Option (List ℚ)) : Metrics :=
  match fittedCurve with
  | none => ⟨none, none, none, none⟩
  | some fc =>
    if sortedPoints.length < minPtsOf config then ⟨none, none, none, none⟩
    else
      let meanY := (sortedPoints.map DataPoint.viability).sum / (sortedPoints.length : ℚ)
      let ssr := (sortedPoints.map (fun p =>
        (p.viability - predict M fc.type p.concentration fc.params * 100) ^ 2)).sum
      let sst := (sortedPoints.map (fun p => (p.viability - meanY) ^ 2)).sum
      let r2 := if sst > 0 then 1 - ssr / sst else 0
      let ic50 : Option ℚ :=
        if fc.type = .monophasic then
          let hs := fc.params.getD 0 0
          let eInf := fc.params.getD 1 0
          let ec50 := fc.params.getD 2 0
          if (0.5 : ℚ) ≥ eInf ∧ (0.5 : ℚ) ≤ 1.0 ∧ (0.5 : ℚ) - eInf > 0 then
            some (ec50 * M.pow (0.5 / (0.5 - eInf)) (1 / hs))
          else none
        else
          match fitFn sortedPoints config algo with
          | some mono => some (mono.getD 2 0)
          | none => none
      let xs := sortedPoints.map (fun p => M.log10 p.concentration)
      let ys := sortedPoints.map (fun p => min p.viability 100)
      let auc := ((List.range (xs.length - 1)).map (fun i =>
        ((ys.getD i 0 + ys.getD (i + 1) 0) / 2) * (xs.getD (i + 1) 0 - xs.getD i 0))).sum / 100
      let emaxMode := jsOrS (config.fitting.bind Fitting.emaxMode)
        (jsOrS config.emaxMode "fromCurveAtMax")
      let emax : Option ℚ :=
        if emaxMode = "fromCurveAtMax" then
          let maxConc := listMaxD 0 (sortedPoints.map DataPoint.concentration)
          some (predict M fc.type maxConc fc.params * 100)
        else none
      ⟨some r2, ic50, some auc, emax⟩

/-- The three seed vectors of `fitMonophasicForIC50` (models.js
lines 450-458). -/
def ic50Seeds (M : JSMath) (sortedPoints : List DataPoint) : List (List ℚ) :=
  let xs := sortedPoints.map (fun p => M.log10 p.concentration)
  let ys := sortedPoints.map (fun p => min (max (p.viability / 100) 0) 1)
  let meanLogX := xs.sum / (xs.length : ℚ)
  let geoEC50 := M.pow 10 meanLogX
  let minY := listMinD 0 ys
  [[1.5, min 0.9 (max 0.0 (minY * 0.9)), max 1e-6 geoEC50],
   [1.0, 0.1, M.pow 10 (-1.0)],
   [2.5, 0.2, M.pow 10 0.0]]

/-- The Nelder-Mead run of `fitMonophasicForIC50` for one seed
(models.js lines 463-465). -/
def ic50Candidate (M : JSMath) (sortedPoints : List DataPoint) (config : Config)
    (algo : String) (seed : List ℚ) : List ℚ :=
  let obj := fun p => objectiveFunction M p sortedPoints .monophasic config algo
  let jOther := jsOrQ ((config.initialParams.bind InitialParams.jitter).bind JitterCfg.other) 0.1
  nelderMead obj (buildJitteredSimplex seed .monophasic jOther) config

/-- The selection key of `fitMonophasicForIC50`: the plain squared-error
`sse` of `r2ForParams` on the percent-viability scale (models.js line 466). -/
def ic50Sse (M : JSMath) (sortedPoints : List DataPoint) (params : List ℚ) : ℚ :=
  (r2ForParams M params .monophasic sortedPoints).1

/-- One step of the multi-start loop of `fitMonophasicForIC50`
(models.js lines 462-468): run the seed, keep it if it strictly lowers
the best squared-error so far. -/
def ic50Step (M : JSMath) (sortedPoints : List DataPoint) (config : Config)
    (algo : String) (best : Option (List ℚ × ℚ)) (s : List ℚ) :
    Option (List ℚ × ℚ) :=
  let params := ic50Candidate M sortedPoints config algo s
  let sse := ic50Sse M sortedPoints params
  match best with
  | none => some (params, sse)
  | some b => if sse < b.2 then some (params, sse) else some b

/-- `fitMonophasicForIC50(sortedPoints, config, algo)` (models.js
lines 447-470). -/
def fitMonophasicForIC50 (M : JSMath) (sortedPoints : List DataPoint)
    (config : Config) (algo : String) : Option (List ℚ) :=
  if sortedPoints.length < 2 then none
  else
    ((ic50Seeds M sortedPoints).foldl (ic50Step M sortedPoints config algo) none).map
      Prod.fst

/-- `getSortedDataPoints()` (app.js lines 331-335): a copy of the data
points sorted ascending by concentration with JS stable `sort`. -/
def getSortedDataPoints (points : List DataPoint) : List DataPoint :=
  sortByKey DataPoint.concentration points

/-! ## Specification-side definitions

These re-state, in the spec's own words, the bound predicate (§3, §4.3
step 1) and the weighted residual loss sum (§4.3 step 2), to be compared
with the source-translated `objectiveFunction`. -/

/-- The spec's bound predicate: `hillSlope` and `eInf` within their
configured min/max in linear space, and `log10 (ec50)` within the `ec50`
min/max (per phase, for biphasic vectors). -/
def boundsOkSpec (M : JSMath) (fitType : FitType) (b : Bounds) (params : List ℚ) : Prop :=
  match fitType with
  | .monophasic =>
    (b.hillSlope.min ≤ params.getD 0 0 ∧ params.getD 0 0 ≤ b.hillSlope.max) ∧
    (b.eInf.min ≤ params.getD 1 0 ∧ params.getD 1 0 ≤ b.eInf.max) ∧
    (b.ec50.min ≤ M.log10 (params.getD 2 0) ∧ M.log10 (params.getD 2 0) ≤ b.ec50.max)
  | .biphasic =>
    (b.hillSlope.min ≤ params.getD 0 0 ∧ params.getD 0 0 ≤ b.hillSlope.max) ∧
    (b.hillSlope.min ≤ params.getD 3 0 ∧ params.getD 3 0 ≤ b.hillSlope.max) ∧
    (b.eInf.min ≤ params.getD 1 0 ∧ params.getD 1 0 ≤ b.eInf.max) ∧
    (b.eInf.min ≤ params.getD 4 0 ∧ params.getD 4 0 ≤ b.eInf.max) ∧
    (b.ec50.min ≤ M.log10 (params.getD 2 0) ∧ M.log10 (params.getD 2 0) ≤ b.ec50.max) ∧
    (b.ec50.min ≤ M.log10 (params.getD 5 0) ∧ M.log10 (params.getD 5 0) ≤ b.ec50.max)

instance (M : JSMath) (fitType : FitType) (b : Bounds) (params : List ℚ) :
    Decidable (boundsOkSpec M fitType b params) :=
  match fitType with
  | .monophasic =>
    inferInstanceAs (Decidable ((_ ≤ _ ∧ _ ≤ _) ∧ (_ ≤ _ ∧ _ ≤ _) ∧ (_ ≤ _ ∧ _ ≤ _)))
  | .biphasic =>
    inferInstanceAs (Decidable ((_ ≤ _ ∧ _ ≤ _) ∧ (_ ≤ _ ∧ _ ≤ _) ∧ (_ ≤ _ ∧ _ ≤ _) ∧
      (_ ≤ _ ∧ _ ≤ _) ∧ (_ ≤ _ ∧ _ ≤ _) ∧ (_ ≤ _ ∧ _ ≤ _)))

/-- The spec's weighted residual loss sum (§4.3 step 2): over point index
`i`, the positional weight times the selected loss of
`viability/100 − predictedFraction`, with no penalty term. -/
def residualSumSpec (M : JSMath) (params : List ℚ) (dataPoints : List DataPoint)
    (fitType : FitType) (config : Config) (algo : String) : ℚ :=
  ((List.range dataPoints.length).map (fun i =>
    weightFor config fitType dataPoints.length i *
      lossByName algo
        ((dataPoints.getD i default).viability / 100 -
          predict M fitType (dataPoints.getD i default).concentration params)
        (huberDeltaOf config))).sum

/-! ## Helper lemmas -/

theorem foldl_add_eq_sum (f : ℕ → ℚ) (l : List ℕ) (c : ℚ) :
    l.foldl (fun a i => a + f i) c = c + (l.map f).sum := by
  induction l generalizing c with
  | nil => simp
  | cons x xs ih => simp [ih, add_assoc]

/-! ## Claim C1 -/

/-- Shared characterization: `objectiveFunction` is `1e12` outside the
spec's bound predicate and the spec's weighted residual loss sum inside it. -/
theorem objective_eq_spec (M : JSMath) (params : List ℚ)
    (dataPoints : List DataPoint) (fitType : FitType) (config : Config)
    (algo : String) :
    objectiveFunction M params dataPoints fitType config algo =
      if boundsOkSpec M fitType config.bounds params
      then residualSumSpec M params dataPoints fitType config algo
      else 1e12 := by
  have hsum : (List.range dataPoints.length).foldl
      (fun total i =>
        total + weightFor config fitType dataPoints.length i *
          lossByName algo
            ((dataPoints.getD i default).viability / 100 -
              predict M fitType (dataPoints.getD i default).concentration params)
            (huberDeltaOf config)) 0
      = residualSumSpec M params dataPoints fitType config algo := by
    rw [residualSumSpec, foldl_add_eq_sum
      (fun i => weightFor config fitType dataPoints.length i *
        lossByName algo
          ((dataPoints.getD i default).viability / 100 -
            predict M fitType (dataPoints.getD i default).concentration params)
          (huberDeltaOf config)), zero_add]
  cases fitType with
  | monophasic =>
    by_cases hb : boundsOkSpec M .monophasic config.bounds params
    · rw [if_pos hb]
      simp only [boundsOkSpec] at hb
      simp only [objectiveFunction]
      rw [if_neg (show ¬(FitType.monophasic = FitType.biphasic) by simp)]
      split
      · next hcond =>
        exfalso
        simp only [Bool.not_eq_true', Bool.and_eq_false_iff,
          decide_eq_false_iff_not, not_and_or, not_le] at hcond
        obtain ⟨⟨h1, h2⟩, ⟨h3, h4⟩, h5, h6⟩ := hb
        rcases hcond with ((h | h) | (h | h)) | (h | h) <;> linarith
      · exact hsum
    · rw [if_neg hb]
      simp only [boundsOkSpec] at hb
      simp only [objectiveFunction]
      rw [if_neg (show ¬(FitType.monophasic = FitType.biphasic) by simp)]
      split
      · next => rfl
      · next hcond =>
        exfalso
        simp only [Bool.not_eq_true', Bool.not_eq_false, Bool.and_eq_true,
          decide_eq_true_eq] at hcond
        tauto
  | biphasic =>
    by_cases hb : boundsOkSpec M .biphasic config.bounds params
    · rw [if_pos hb]
      simp only [boundsOkSpec] at hb
      simp only [objectiveFunction]
      rw [if_pos trivial]
      split
      · next hcond =>
        exfalso
        simp only [Bool.not_eq_true', Bool.and_eq_false_iff,
          decide_eq_false_iff_not, not_and_or, not_le] at hcond
        obtain ⟨⟨h1, h2⟩, ⟨h3, h4⟩, ⟨h5, h6⟩, ⟨h7, h8⟩, ⟨h9, h10⟩, h11, h12⟩ := hb
        rcases hcond with (((((h | h) | (h | h)) | (h | h)) | (h | h)) | (h | h)) | (h | h) <;>
          linarith
      · exact hsum
    · rw [if_neg hb]
      simp only [boundsOkSpec] at hb
      simp only [objectiveFunction]
      rw [if_pos trivial]
      split
      · next => rfl
      · next hcond =>
        exfalso
        simp only [Bool.not_eq_true', Bool.not_eq_false, Bool.and_eq_true,
          decide_eq_true_eq] at hcond
        tauto

/-- Claim C1: for every parameter vector, dataset, fit type, config and
algorithm name, `objectiveFunction` returns exactly `1e12` whenever the
spec's bound predicate fails (`hillSlope` and `eInf` in linear space,
`log10 (ec50)` against the `ec50` bounds), and returns the spec's weighted
residual loss sum, with no penalty added, whenever it holds. -/
theorem objective_bounds_gate (M : JSMath) (params : List ℚ)
    (dataPoints : List DataPoint) (fitType : FitType) (config : Config)
    (algo : String) :
    (¬ boundsOkSpec M fitType config.bounds params →
      objectiveFunction M params dataPoints fitType config algo = 1e12) ∧
    (boundsOkSpec M fitType config.bounds params →
      objectiveFunction M params dataPoints fitType config algo =
        residualSumSpec M params dataPoints fitType config algo) := by
  rw [objective_eq_spec]
  constructor
  · intro h
    rw [if_neg h]
  · intro h
    rw [if_pos h]

/-! ## Concrete instances for witnesses -/

/-- A computable stand-in for the transcendental primitives: constant
`log10` and constant `pow`.  It agrees with the real functions at the
arguments the witnesses touch (`log10 1 = 0`, `10 ^ 0 = 1`). -/
def flatMath : JSMath := ⟨fun _ => 0, fun _ _ => 1⟩

/-- The shipped configuration (`assets/js/config.js`). -/
def defaultConfig : Config where
  bounds := ⟨⟨0, 5⟩, ⟨0, 1⟩, ⟨-8, 8⟩⟩
  fitting := some ⟨some 5, some "fromCurveAtMax"⟩
  optimizer := some ⟨some 100000, some 1e-6, some 200, some 1.0, some 1e-6, some 10, some 1e-6⟩
  robust := some ⟨some 0.05, some ⟨some 10, some 10, some true⟩⟩
  mesh := some ⟨some [2, 10, 5], some [2, 10, 5, 2, 10, 5], some 0.5, some 1.0, some 1e-4,
    some 5000⟩
  initialParams := some ⟨some ⟨some 0.02, some 0.1⟩⟩
  huberDelta := none
  maxIterations := none
  convergenceTolerance := none
  maxGDIter := none
  minPointsForFit := none
  emaxMode := none

/-- A small concrete dataset (already sorted by concentration). -/
def samplePoints : List DataPoint :=
  [⟨1, 100⟩, ⟨1, 80⟩, ⟨10, 50⟩, ⟨10, 20⟩, ⟨100, 10⟩]

/-- Witness for claim C1: with the shipped bounds, `[6, 0.5, 1]` violates
the hillSlope bound and the objective is exactly `1e12`; `[1, 0.5, 1]` is
within bounds and the objective is the weighted residual sum. -/
theorem objective_bounds_gate_witness :
    (¬ boundsOkSpec flatMath .monophasic defaultConfig.bounds [6, 0.5, 1] ∧
      objectiveFunction flatMath [6, 0.5, 1] samplePoints .monophasic defaultConfig
        "huber" = 1e12) ∧
    (boundsOkSpec flatMath .monophasic defaultConfig.bounds [1, 0.5, 1] ∧
      objectiveFunction flatMath [1, 0.5, 1] samplePoints .monophasic defaultConfig
        "huber" =
        residualSumSpec flatMath [1, 0.5, 1] samplePoints .monophasic defaultConfig
          "huber") := by
  refine ⟨⟨by with_unfolding_all decide, ?_⟩, ⟨by with_unfolding_all decide, ?_⟩⟩
  · exact (objective_bounds_gate flatMath [6, 0.5, 1] samplePoints .monophasic
      defaultConfig "huber").1 (by with_unfolding_all decide)
  · exact (objective_bounds_gate flatMath [1, 0.5, 1] samplePoints .monophasic
      defaultConfig "huber").2 (by with_unfolding_all decide)

/-! ## Claim C5 -/

/-- Claim C5, counterexample: at residual `r = delta = 1` (`delta > 0`),
`huberLoss r delta = 0.5` while `squaredLoss r = 1`, so the claimed exact
agreement with `squaredLoss` at `r = delta` fails. -/
theorem huber_at_delta_counterexample :
    (0 : ℚ) < 1 ∧ huberLoss 1 1 ≠ squaredLoss 1 := by
  refine ⟨by norm_num, ?_⟩
  rw [huberLoss, squaredLoss]
  norm_num

/-- Claim C5 (amended): for every residual `r` and `delta > 0`,
`huberLoss r delta = 0.5·r²` whenever `|r| ≤ delta`, and at `r = delta`
the Huber loss equals half of `squaredLoss delta` (both Huber branch
formulas coincide at `|r| = delta`), not `squaredLoss delta` itself. -/
theorem huber_quadratic_region (r delta : ℚ) (hd : 0 < delta) :
    (|r| ≤ delta → huberLoss r delta = 0.5 * r ^ 2) ∧
    huberLoss delta delta = 0.5 * squaredLoss delta ∧
    delta * (|delta| - 0.5 * delta) = 0.5 * squaredLoss delta := by
  refine ⟨fun h => ?_, ?_, ?_⟩
  · rw [huberLoss]
    simp only [h, if_pos]
    ring
  · rw [huberLoss, squaredLoss]
    simp only [abs_of_pos hd, le_refl, if_pos]
    ring
  · rw [squaredLoss, abs_of_pos hd]
    ring

/-- Witness for the amended claim C5, at `r = delta = 1`. -/
theorem huber_quadratic_region_witness :
    (0 : ℚ) < 1 ∧
    ((|(1 : ℚ)| ≤ 1 → huberLoss 1 1 = 0.5 * 1 ^ 2) ∧
      huberLoss 1 1 = 0.5 * squaredLoss 1 ∧
      (1 : ℚ) * (|(1 : ℚ)| - 0.5 * 1) = 0.5 * squaredLoss 1) :=
  ⟨by norm_num, huber_quadratic_region 1 1 (by norm_num)⟩

/-! ## Claim C9 -/

/-- Claim C9: for every monophasic parameter vector `[hs, eInf, ec50]`
with `hs > 0`, `ec50 > 0`, `0 ≤ eInf ≤ 1`, the Hill function at
concentration `ec50` is exactly `(1 + eInf) / 2`, given that the power
primitive satisfies `10 ^ 0 = 1`. -/
theorem hill_at_ec50_midpoint (M : JSMath) (hs eInf ec50 : ℚ)
    (_hhs : 0 < hs) (_hec : 0 < ec50) (_he0 : 0 ≤ eInf) (_he1 : eInf ≤ 1)
    (hpow : M.pow 10 0 = 1) :
    hillFunction M ec50 [hs, eInf, ec50] = (1 + eInf) / 2 := by
  show eInf + (1 - eInf) / (1 + M.pow 10 (hs * (M.log10 ec50 - M.log10 ec50))) =
    (1 + eInf) / 2
  rw [sub_self, mul_zero, hpow]
  ring

/-- Witness for claim C9 at `hs = 1`, `eInf = 0`, `ec50 = 1` with the
concrete primitives. -/
theorem hill_at_ec50_midpoint_witness :
    ((0 : ℚ) < 1 ∧ (0 : ℚ) ≤ 0 ∧ (0 : ℚ) ≤ 1 ∧ flatMath.pow 10 0 = 1) ∧
    hillFunction flatMath 1 [1, 0, 1] = (1 + 0) / 2 :=
  ⟨⟨by norm_num, le_refl 0, by norm_num, rfl⟩,
    hill_at_ec50_midpoint flatMath 1 0 1 (by norm_num) (by norm_num) (le_refl 0)
      (by norm_num) rfl⟩

/-! ## Claim C3 -/

/-- Claim C3, counterexample: for the monophasic curve `[0, 0.2, 1]` the
hill slope is zero (a zero denominator in the exponent `1/hillSlope`), yet
`calculateMetrics` still reports a non-null `ic50` (the code has no
zero-slope or finiteness check; in JS the reported value is `Infinity`,
not `null`). -/
theorem ic50_zero_slope_counterexample :
    (calculateMetrics flatMath (some ⟨.monophasic, [0, 0.2, 1]⟩) samplePoints
      defaultConfig "huber" (fun _ _ _ => none)).ic50 ≠ none := by
  with_unfolding_all decide

/-- Claim C3 (amended): for a monophasic FittedCurve (dataset at least
`minPointsForFit` long), `calculateMetrics` reports
`ic50 = ec50 · (0.5/(0.5 − eInf))^(1/hillSlope)` whenever `eInf < 0.5` —
with no zero-slope or finiteness guard, so a zero hill slope still
produces this (in JS possibly non-finite) value — and reports
`ic50 = null` exactly when `eInf ≥ 0.5`. -/
theorem ic50_monophasic_closed_form (M : JSMath) (hs eInf ec50 : ℚ)
    (pts : List DataPoint) (config : Config) (algo : String)
    (fitFn : List DataPoint → Config → String → Option (List ℚ))
    (hn : minPtsOf config ≤ pts.length) :
    (eInf < 0.5 →
      (calculateMetrics M (some ⟨.monophasic, [hs, eInf, ec50]⟩) pts config algo
        fitFn).ic50 = some (ec50 * M.pow (0.5 / (0.5 - eInf)) (1 / hs))) ∧
    (0.5 ≤ eInf →
      (calculateMetrics M (some ⟨.monophasic, [hs, eInf, ec50]⟩) pts config algo
        fitFn).ic50 = none) := by
  rw [calculateMetrics]
  rw [if_neg (not_lt.mpr hn)]
  constructor
  · intro h
    simp only [if_pos trivial, List.getD_cons_zero, List.getD_cons_succ]
    rw [if_pos]
    exact ⟨le_of_lt h, by norm_num, by linarith⟩
  · intro h
    simp only [if_pos trivial, List.getD_cons_zero, List.getD_cons_succ]
    rw [if_neg]
    intro hc
    have := hc.2.2
    linarith

/-- Witness for the amended claim C3 on the shipped config. -/
theorem ic50_monophasic_closed_form_witness :
    minPtsOf defaultConfig ≤ samplePoints.length ∧
    (((0.2 : ℚ) < 0.5 →
      (calculateMetrics flatMath (some ⟨.monophasic, [1, 0.2, 1]⟩) samplePoints
        defaultConfig "huber" (fun _ _ _ => none)).ic50 =
        some (1 * flatMath.pow (0.5 / (0.5 - 0.2)) (1 / 1))) ∧
    ((0.5 : ℚ) ≤ 0.2 →
      (calculateMetrics flatMath (some ⟨.monophasic, [1, 0.2, 1]⟩) samplePoints
        defaultConfig "huber" (fun _ _ _ => none)).ic50 = none)) :=
  ⟨by with_unfolding_all decide,
    ic50_monophasic_closed_form flatMath 1 0.2 1 samplePoints defaultConfig "huber"
      (fun _ _ _ => none) (by with_unfolding_all decide)⟩

/-! ## Length preservation through the fitting pipeline -/

theorem foldl_preserve {α β : Type} (P : β → Prop) (f : β → α → β) :
    ∀ (l : List α) (init : β), P init → (∀ b a, P b → P (f b a)) → P (l.foldl f init)
  | [], _, h0, _ => h0
  | x :: xs, init, h0, hstep => foldl_preserve P f xs (f init x) (hstep init x h0) hstep

theorem getD_mem_of_lt {α : Type} (l : List α) (i : ℕ) (h : i < l.length) (d : α) :
    l.getD i d ∈ l := by
  rw [List.getD_eq_getElem?_getD, List.getElem?_eq_getElem h]
  exact List.getElem_mem h

theorem projectToBounds_length (M : JSMath) (p : List ℚ) (ft : FitType)
    (config : Config) : (projectToBounds M p ft config).length = p.length := by
  rw [projectToBounds]
  cases ft <;> simp

theorem computeGrittyGuess_length (M : JSMath) (ft : FitType)
    (pts : List DataPoint) (config : Config) :
    (computeGrittyGuess M ft pts config).length = ft.dim := by
  rw [computeGrittyGuess]
  cases ft <;> simp [FitType.dim]

theorem backtrackLoop_length (M : JSMath) (obj : List ℚ → ℚ) (ft : FitType)
    (config : Config) (p g : List ℚ) (f0 : ℚ) (fuel : ℕ) :
    ∀ st : ℚ × List ℚ × ℚ, st.2.1.length = p.length →
      (backtrackLoop M obj ft config p g f0 fuel st).2.1.length = p.length := by
  induction fuel with
  | zero => intro st h; exact h
  | succ n ih =>
    intro st h
    obtain ⟨alpha, trial, fTrial⟩ := st
    rw [backtrackLoop]
    split
    · apply ih
      simp [projectToBounds_length]
    · exact h

theorem pgdLoop_length (M : JSMath) (obj : List ℚ → ℚ) (ft : FitType)
    (config : Config) (fuel : ℕ) :
    ∀ st : List ℚ × ℚ × ℚ, (pgdLoop M obj ft config fuel st).length = st.1.length := by
  induction fuel with
  | zero => intro st; rfl
  | succ n ih =>
    intro st
    obtain ⟨p, alpha, fPrev⟩ := st
    rw [pgdLoop]
    split
    · rw [ih]
      apply backtrackLoop_length
      simp [projectToBounds_length]
    · rfl

theorem projectedGradDescent_length (M : JSMath) (obj : List ℚ → ℚ) (p0 : List ℚ)
    (ft : FitType) (config : Config) :
    (projectedGradDescent M obj p0 ft config).length = p0.length := by
  rw [projectedGradDescent, pgdLoop_length]
  exact projectToBounds_length M p0 ft config

theorem cartesianLevels_mem_length :
    ∀ (ls : List (List ℚ)) (p : List ℚ), p ∈ cartesianLevels ls → p.length = ls.length := by
  intro ls
  induction ls with
  | nil => intro p hp; simp [cartesianLevels] at hp; simp [hp]
  | cons l rest ih =>
    intro p hp
    simp only [cartesianLevels, List.mem_flatMap, List.mem_map] at hp
    obtain ⟨v, _, tail, htail, rfl⟩ := hp
    simp [ih tail htail]

theorem foldl_best_mem (obj : List ℚ → ℚ) :
    ∀ (l : List (List ℚ)) (acc : List ℚ × ℚ),
      (l.foldl (fun best cand => if obj cand < best.2 then (cand, obj cand) else best)
        acc).1 = acc.1 ∨
      (l.foldl (fun best cand => if obj cand < best.2 then (cand, obj cand) else best)
        acc).1 ∈ l := by
  intro l
  induction l with
  | nil => intro acc; left; rfl
  | cons x xs ih =>
    intro acc
    simp only [List.foldl_cons]
    rcases ih (if obj x < acc.2 then (x, obj x) else acc) with h | h
    · rw [h]
      split
      · right; exact List.mem_cons_self x xs
      · left; rfl
    · right; exact List.mem_cons_of_mem x h

theorem meshGrid_mem_length (M : JSMath) (config : Config) (ft : FitType) :
    ∀ q ∈ meshGrid M config ft, q.length = (densitiesOf config ft).length := by
  intro q hq
  simp only [meshGrid, List.mem_map] at hq
  obtain ⟨pre, hpre, rfl⟩ := hq
  have hl := cartesianLevels_mem_length _ pre hpre
  have hml : (meshLevels config.bounds ft (densitiesOf config ft)).length =
      (densitiesOf config ft).length := by
    simp [meshLevels]
  rw [hml] at hl
  split <;> simp [projectToBounds_length, hl]

theorem meshCandidates_mem_length (M : JSMath) (sample : ℕ → ℕ → List ℕ)
    (config : Config) (ft : FitType)
    (hsample : ∀ m n i, i ∈ sample m n → i < n) :
    ∀ q ∈ meshCandidates M sample config ft,
      q.length = (densitiesOf config ft).length := by
  intro q hq
  rw [meshCandidates] at hq
  split at hq
  · simp only [List.mem_map] at hq
    obtain ⟨i, hi, rfl⟩ := hq
    exact meshGrid_mem_length M config ft _
      (getD_mem_of_lt _ i (hsample _ _ i hi) [])
  · exact meshGrid_mem_length M config ft q hq

theorem meshEval_best_length (M : JSMath) (sample : ℕ → ℕ → List ℕ) (ft : FitType)
    (guess : List ℚ) (pts : List DataPoint) (config : Config) (algo : String)
    (hsample : ∀ m n i, i ∈ sample m n → i < n) :
    (meshEval M sample ft guess pts config algo).best.length = guess.length ∨
    (meshEval M sample ft guess pts config algo).best.length =
      (densitiesOf config ft).length := by
  rw [meshEval]
  simp only
  rcases foldl_best_mem (fun p => objectiveFunction M p pts ft config algo)
      (meshCandidates M sample config ft)
      (guess, objectiveFunction M guess pts ft config algo) with h | h
  · left; rw [h]
  · right
    exact meshCandidates_mem_length M sample config ft hsample _ h

theorem psSweep_length (M : JSMath) (obj : List ℚ → ℚ) (ft : FitType)
    (config : Config) (steps : List ℚ) (span : ℚ) (st0 : List ℚ × ℚ × Bool) :
    (psSweep M obj ft config steps span st0).1.length = st0.1.length := by
  rw [psSweep]
  refine foldl_preserve (fun st : List ℚ × ℚ × Bool => st.1.length = st0.1.length)
    _ _ _ rfl ?_
  intro b i hb
  refine foldl_preserve (fun st : List ℚ × ℚ × Bool => st.1.length = st0.1.length)
    _ _ _ hb ?_
  intro c dir hc
  simp only
  split
  · simp [projectToBounds_length, hc]
  · exact hc

theorem psLoop_length (M : JSMath) (obj : List ℚ → ℚ) (ft : FitType)
    (config : Config) (steps : List ℚ) (precision : ℚ) (fuel : ℕ) :
    ∀ (span : ℚ) (guess : List ℚ) (guessVal : ℚ),
      (psLoop M obj ft config steps precision fuel span guess guessVal).length =
        guess.length := by
  induction fuel with
  | zero => intro span guess guessVal; rfl
  | succ n ih =>
    intro span guess guessVal
    rw [psLoop]
    split
    · dsimp only
      split
      · rw [ih]
        exact psSweep_length M obj ft config steps span (guess, guessVal, false)
      · rw [ih]
        exact psSweep_length M obj ft config steps span (guess, guessVal, false)
    · rfl

theorem patternSearch_length (M : JSMath) (fuel : ℕ) (ft : FitType) (start : List ℚ)
    (pts : List DataPoint) (config : Config) (algo : String) (steps : List ℚ)
    (span precision : ℚ) :
    (patternSearch M fuel ft start pts config algo steps span precision).length =
      start.length := by
  rw [patternSearch, psLoop_length]

theorem fitCase1Strategy_length (M : JSMath) (sample : ℕ → ℕ → List ℕ) (fuel : ℕ)
    (ft : FitType) (pts : List DataPoint) (config : Config) (algo : String)
    (hdens : (densitiesOf config ft).length = ft.dim)
    (hsample : ∀ m n i, i ∈ sample m n → i < n) :
    (fitCase1Strategy M sample fuel ft pts config algo).length = ft.dim := by
  rw [fitCase1Strategy]
  dsimp only
  split
  · rw [patternSearch_length]
    rcases meshEval_best_length M sample ft (computeGrittyGuess M ft pts config) pts
        config algo hsample with h | h
    · rw [h, computeGrittyGuess_length]
    · rw [h, hdens]
  · split
    · rw [projectedGradDescent_length, computeGrittyGuess_length]
    · rw [computeGrittyGuess_length]

/-! ## Claim C4 -/

/-- A two-point dataset, below the shipped `minPointsForFit` of 5. -/
def twoPoints : List DataPoint := [⟨1, 100⟩, ⟨10, 10⟩]

/-- Claim C4: `calculateMetrics` returns the all-`null` record whenever
the fitted curve is `null` or the dataset is shorter than the resolved
`minPointsForFit`, while `fitCase1Strategy` has no minimum-point gate: on
any nonempty dataset (even one below `minPointsForFit`) it still returns
a parameter vector of the fit type's dimension.  (The mesh densities are
assumed to have the fit type's dimension, as in the shipped config, and
the random subsample is assumed to produce in-range indices, as
`Math.floor(Math.random() * candidates.length)` does.) -/
theorem metrics_null_gate_and_fit_no_gate (M : JSMath) (sample : ℕ → ℕ → List ℕ)
    (fuel : ℕ) (ft : FitType) (pts : List DataPoint) (config : Config)
    (algo : String) (fitFn : List DataPoint → Config → String → Option (List ℚ))
    (fc : FittedCurve) (_hne : pts ≠ [])
    (hdens : (densitiesOf config ft).length = ft.dim)
    (hsample : ∀ m n i, i ∈ sample m n → i < n) :
    calculateMetrics M none pts config algo fitFn = ⟨none, none, none, none⟩ ∧
    (pts.length < minPtsOf config →
      calculateMetrics M (some fc) pts config algo fitFn = ⟨none, none, none, none⟩) ∧
    (fitCase1Strategy M sample fuel ft pts config algo).length = ft.dim := by
  refine ⟨rfl, fun h => ?_, fitCase1Strategy_length M sample fuel ft pts config algo
    hdens hsample⟩
  rw [calculateMetrics, if_pos h]

/-- Witness for claim C4 on a two-point dataset (below the shipped
minimum of 5) with the shipped config. -/
theorem metrics_null_gate_and_fit_no_gate_witness :
    (twoPoints ≠ [] ∧ (densitiesOf defaultConfig .monophasic).length =
      FitType.dim .monophasic ∧ twoPoints.length < minPtsOf defaultConfig) ∧
    (calculateMetrics flatMath none twoPoints defaultConfig "huber"
      (fun _ _ _ => none) = ⟨none, none, none, none⟩ ∧
    (twoPoints.length < minPtsOf defaultConfig →
      calculateMetrics flatMath (some ⟨.monophasic, [1, 0, 1]⟩) twoPoints
        defaultConfig "huber" (fun _ _ _ => none) = ⟨none, none, none, none⟩) ∧
    (fitCase1Strategy flatMath (fun _ _ => []) 0 .monophasic twoPoints defaultConfig
      "huber").length = FitType.dim .monophasic) :=
  ⟨⟨by with_unfolding_all decide, by with_unfolding_all decide,
      by with_unfolding_all decide⟩,
    metrics_null_gate_and_fit_no_gate flatMath (fun _ _ => []) 0 .monophasic twoPoints
      defaultConfig "huber" (fun _ _ _ => none) ⟨.monophasic, [1, 0, 1]⟩
      (by with_unfolding_all decide) (by with_unfolding_all decide)
      (fun _ _ i h => absurd h (List.not_mem_nil i))⟩

/-! ## Claim C8 -/

theorem getD_set_eq {α : Type} (l : List α) (i : ℕ) (a d : α) (h : i < l.length) :
    (l.set i a).getD i d = a := by
  rw [List.getD_eq_getElem?_getD, List.getElem?_set_self (by simpa using h)]
  rfl

theorem getD_set_ne {α : Type} (l : List α) (i j : ℕ) (a d : α) (h : i ≠ j) :
    (l.set i a).getD j d = l.getD j d := by
  rw [List.getD_eq_getElem?_getD, List.getElem?_set_ne h, ← List.getD_eq_getElem?_getD]

theorem clampQ_mem (lo hi v : ℚ) (h : lo ≤ hi) :
    lo ≤ clampQ lo hi v ∧ clampQ lo hi v ≤ hi :=
  ⟨le_min h (le_max_left lo v), min_le_left hi _⟩

theorem exists_three {α : Type} : ∀ (l : List α), l.length = 3 →
    ∃ a b c, l = [a, b, c]
  | [a, b, c], _ => ⟨a, b, c, rfl⟩

theorem exists_six {α : Type} : ∀ (l : List α), l.length = 6 →
    ∃ a b c d e f, l = [a, b, c, d, e, f]
  | [a, b, c, d, e, f], _ => ⟨a, b, c, d, e, f, rfl⟩

/-- Claim C8: for every parameter vector of the fit type's length with
positive `ec50` entries and well-ordered configured bounds, the output of
`projectToBounds` satisfies the bound predicate used by
`objectiveFunction` (`hillSlope`/`eInf` within their linear min/max,
`log10` of each `ec50` entry within the `ec50` min/max), so the objective
evaluates to the weighted residual sum — the `1e12` penalty gate never
fires — at any projected point.  The analytic fact `log10 (10^x) = x`
about the primitives is taken as a hypothesis. -/
theorem projectToBounds_in_bounds (M : JSMath) (p : List ℚ) (ft : FitType)
    (config : Config) (pts : List DataPoint) (algo : String)
    (hlp : ∀ x, M.log10 (M.pow 10 x) = x)
    (hlen : p.length = ft.dim)
    (_hpos : 0 < p.getD 2 0 ∧ (ft = .biphasic → 0 < p.getD 5 0))
    (hhs : config.bounds.hillSlope.min ≤ config.bounds.hillSlope.max)
    (hei : config.bounds.eInf.min ≤ config.bounds.eInf.max)
    (hec : config.bounds.ec50.min ≤ config.bounds.ec50.max) :
    boundsOkSpec M ft config.bounds (projectToBounds M p ft config) ∧
    objectiveFunction M (projectToBounds M p ft config) pts ft config algo =
      residualSumSpec M (projectToBounds M p ft config) pts ft config algo := by
  have hmain : boundsOkSpec M ft config.bounds (projectToBounds M p ft config) := by
    cases ft with
    | monophasic =>
      obtain ⟨x0, x1, x2, rfl⟩ := exists_three p hlen
      refine ⟨clampQ_mem _ _ _ hhs, clampQ_mem _ _ _ hei, ?_⟩
      show config.bounds.ec50.min ≤ M.log10 (M.pow 10
          (clampQ config.bounds.ec50.min config.bounds.ec50.max (M.log10 x2))) ∧
        M.log10 (M.pow 10
          (clampQ config.bounds.ec50.min config.bounds.ec50.max (M.log10 x2))) ≤
          config.bounds.ec50.max
      rw [hlp]
      exact clampQ_mem _ _ _ hec
    | biphasic =>
      obtain ⟨x0, x1, x2, x3, x4, x5, rfl⟩ := exists_six p hlen
      refine ⟨clampQ_mem _ _ _ hhs, clampQ_mem _ _ _ hhs, clampQ_mem _ _ _ hei,
        clampQ_mem _ _ _ hei, ?_, ?_⟩
      · show config.bounds.ec50.min ≤ M.log10 (M.pow 10
            (clampQ config.bounds.ec50.min config.bounds.ec50.max (M.log10 x2))) ∧
          M.log10 (M.pow 10
            (clampQ config.bounds.ec50.min config.bounds.ec50.max (M.log10 x2))) ≤
            config.bounds.ec50.max
        rw [hlp]
        exact clampQ_mem _ _ _ hec
      · show config.bounds.ec50.min ≤ M.log10 (M.pow 10
            (clampQ config.bounds.ec50.min config.bounds.ec50.max (M.log10 x5))) ∧
          M.log10 (M.pow 10
            (clampQ config.bounds.ec50.min config.bounds.ec50.max (M.log10 x5))) ≤
            config.bounds.ec50.max
        rw [hlp]
        exact clampQ_mem _ _ _ hec
  refine ⟨hmain, ?_⟩
  rw [objective_eq_spec, if_pos hmain]

/-- Witness for claim C8: identity-style primitives (`pow b e = e`,
`log10 = id`), the shipped bounds, and the out-of-bounds vector
`[10, -1, 100000]`. -/
theorem projectToBounds_in_bounds_witness :
    ((∀ x : ℚ, (JSMath.mk id (fun _ e => e)).log10 ((JSMath.mk id (fun _ e => e)).pow 10 x)
        = x) ∧
      ([10, -1, 100000] : List ℚ).length = FitType.dim .monophasic ∧
      (0 : ℚ) < ([10, -1, 100000] : List ℚ).getD 2 0 ∧
      defaultConfig.bounds.hillSlope.min ≤ defaultConfig.bounds.hillSlope.max) ∧
    (boundsOkSpec (JSMath.mk id (fun _ e => e)) .monophasic defaultConfig.bounds
      (projectToBounds (JSMath.mk id (fun _ e => e)) [10, -1, 100000] .monophasic
        defaultConfig) ∧
    objectiveFunction (JSMath.mk id (fun _ e => e))
      (projectToBounds (JSMath.mk id (fun _ e => e)) [10, -1, 100000] .monophasic
        defaultConfig) twoPoints .monophasic defaultConfig "huber" =
      residualSumSpec (JSMath.mk id (fun _ e => e))
        (projectToBounds (JSMath.mk id (fun _ e => e)) [10, -1, 100000] .monophasic
          defaultConfig) twoPoints .monophasic defaultConfig "huber") :=
  ⟨⟨fun _ => rfl, rfl, by with_unfolding_all decide, by with_unfolding_all decide⟩,
    projectToBounds_in_bounds (JSMath.mk id (fun _ e => e)) [10, -1, 100000] .monophasic
      defaultConfig twoPoints "huber" (fun _ => rfl) rfl
      ⟨by with_unfolding_all decide, fun h => by cases h⟩
      (by with_unfolding_all decide) (by with_unfolding_all decide)
      (by with_unfolding_all decide)⟩

/-! ## Claim C2 -/

theorem huberLoss_nonneg (r delta : ℚ) (hd : 0 ≤ delta) : 0 ≤ huberLoss r delta := by
  rw [huberLoss]
  split
  · nlinarith [mul_self_nonneg r]
  · next h =>
    have h1 : delta < |r| := not_le.mp h
    have h0 : (0 : ℚ) ≤ |r| := abs_nonneg r
    nlinarith

theorem squaredLoss_nonneg (r : ℚ) : 0 ≤ squaredLoss r := mul_self_nonneg r

theorem lossByName_nonneg (name : String) (r delta : ℚ) (hd : 0 ≤ delta) :
    0 ≤ lossByName name r delta := by
  rw [lossByName]
  split
  · exact huberLoss_nonneg r delta hd
  · exact squaredLoss_nonneg r

theorem weightFor_nonneg (config : Config) (ft : FitType) (n i : ℕ)
    (hend : 0 ≤ jsOrQ ((config.robust.bind Robust.weights).bind Weights.endpoints) 10)
    (hmid : 0 ≤ jsOrQ ((config.robust.bind Robust.weights).bind Weights.midpoint) 10) :
    0 ≤ weightFor config ft n i := by
  rw [weightFor]
  split
  · exact hmid
  · split
    · exact hend
    · norm_num

theorem residualSumSpec_nonneg (M : JSMath) (params : List ℚ) (pts : List DataPoint)
    (ft : FitType) (config : Config) (algo : String)
    (hend : 0 ≤ jsOrQ ((config.robust.bind Robust.weights).bind Weights.endpoints) 10)
    (hmid : 0 ≤ jsOrQ ((config.robust.bind Robust.weights).bind Weights.midpoint) 10)
    (hdelta : 0 ≤ huberDeltaOf config) :
    0 ≤ residualSumSpec M params pts ft config algo := by
  rw [residualSumSpec]
  apply List.sum_nonneg
  intro x hx
  simp only [List.mem_map] at hx
  obtain ⟨i, _, rfl⟩ := hx
  exact mul_nonneg (weightFor_nonneg config ft pts.length i hend hmid)
    (lossByName_nonneg algo _ _ hdelta)

theorem objectiveFunction_nonneg (M : JSMath) (params : List ℚ)
    (pts : List DataPoint) (ft : FitType) (config : Config) (algo : String)
    (hend : 0 ≤ jsOrQ ((config.robust.bind Robust.weights).bind Weights.endpoints) 10)
    (hmid : 0 ≤ jsOrQ ((config.robust.bind Robust.weights).bind Weights.midpoint) 10)
    (hdelta : 0 ≤ huberDeltaOf config) :
    0 ≤ objectiveFunction M params pts ft config algo := by
  rw [objective_eq_spec]
  split
  · exact residualSumSpec_nonneg M params pts ft config algo hend hmid hdelta
  · norm_num

/-- Claim C2: the mesh + pattern-search fallback of `fitCase1Strategy`
runs exactly when the projected-gradient refined value is not strictly
below `guessValue · (1 − improvementTol)` — although the code tests
`min(refinedValue, guessValue)`, the two conditions coincide because the
objective is nonnegative (under nonnegative resolved weights and Huber
delta) and `improvementTol ≥ 0` — and in that case the final answer is
the pattern search seeded from the mesh minimizer, itself seeded with the
gritty guess; otherwise the answer is whichever of the guess and the
refined point has the lower objective value. -/
theorem fitCase1_decision_rule (M : JSMath) (sample : ℕ → ℕ → List ℕ) (fuel : ℕ)
    (ft : FitType) (pts : List DataPoint) (config : Config) (algo : String)
    (hend : 0 ≤ jsOrQ ((config.robust.bind Robust.weights).bind Weights.endpoints) 10)
    (hmid : 0 ≤ jsOrQ ((config.robust.bind Robust.weights).bind Weights.midpoint) 10)
    (hdelta : 0 ≤ huberDeltaOf config)
    (htol : 0 ≤ jsOrQ (config.optimizer.bind Optimizer.improvementTol) 1e-6) :
    (¬ (objectiveFunction M (projectedGradDescent M
          (fun p => objectiveFunction M p pts ft config algo)
          (computeGrittyGuess M ft pts config) ft config) pts ft config algo <
        objectiveFunction M (computeGrittyGuess M ft pts config) pts ft config algo *
          (1 - jsOrQ (config.optimizer.bind Optimizer.improvementTol) 1e-6)) →
      fitCase1Strategy M sample fuel ft pts config algo =
        patternSearch M fuel ft
          (meshEval M sample ft (computeGrittyGuess M ft pts config) pts config
            algo).best
          pts config algo
          (meshEval M sample ft (computeGrittyGuess M ft pts config) pts config
            algo).steps
          (meshEval M sample ft (computeGrittyGuess M ft pts config) pts config
            algo).span
          (meshEval M sample ft (computeGrittyGuess M ft pts config) pts config
            algo).precision) ∧
    (objectiveFunction M (projectedGradDescent M
          (fun p => objectiveFunction M p pts ft config algo)
          (computeGrittyGuess M ft pts config) ft config) pts ft config algo <
        objectiveFunction M (computeGrittyGuess M ft pts config) pts ft config algo *
          (1 - jsOrQ (config.optimizer.bind Optimizer.improvementTol) 1e-6) →
      fitCase1Strategy M sample fuel ft pts config algo =
        (if objectiveFunction M (projectedGradDescent M
              (fun p => objectiveFunction M p pts ft config algo)
              (computeGrittyGuess M ft pts config) ft config) pts ft config algo <
            objectiveFunction M (computeGrittyGuess M ft pts config) pts ft config algo
          then projectedGradDescent M (fun p => objectiveFunction M p pts ft config algo)
            (computeGrittyGuess M ft pts config) ft config
          else computeGrittyGuess M ft pts config)) := by
  have hgv : 0 ≤ objectiveFunction M (computeGrittyGuess M ft pts config) pts ft
      config algo :=
    objectiveFunction_nonneg M _ pts ft config algo hend hmid hdelta
  have hiff : min (objectiveFunction M (projectedGradDescent M
        (fun p => objectiveFunction M p pts ft config algo)
        (computeGrittyGuess M ft pts config) ft config) pts ft config algo)
      (objectiveFunction M (computeGrittyGuess M ft pts config) pts ft config algo) <
      objectiveFunction M (computeGrittyGuess M ft pts config) pts ft config algo *
        (1 - jsOrQ (config.optimizer.bind Optimizer.improvementTol) 1e-6) ↔
      objectiveFunction M (projectedGradDescent M
        (fun p => objectiveFunction M p pts ft config algo)
        (computeGrittyGuess M ft pts config) ft config) pts ft config algo <
      objectiveFunction M (computeGrittyGuess M ft pts config) pts ft config algo *
        (1 - jsOrQ (config.optimizer.bind Optimizer.improvementTol) 1e-6) := by
    constructor
    · intro h
      rcases le_total
          (objectiveFunction M (projectedGradDescent M
            (fun p => objectiveFunction M p pts ft config algo)
            (computeGrittyGuess M ft pts config) ft config) pts ft config algo)
          (objectiveFunction M (computeGrittyGuess M ft pts config) pts ft config algo)
          with hle | hle
      · rwa [min_eq_left hle] at h
      · rw [min_eq_right hle] at h
        nlinarith
    · intro h
      exact lt_of_le_of_lt (min_le_left _ _) h
  constructor
  · intro h
    rw [fitCase1Strategy]
    dsimp only
    rw [if_pos (fun hc => h (hiff.mp hc))]
  · intro h
    rw [fitCase1Strategy]
    dsimp only
    rw [if_neg (not_not_intro (hiff.mpr h))]

/-- Witness for claim C2 with the shipped config on a two-point dataset. -/
theorem fitCase1_decision_rule_witness :
    ((0 : ℚ) ≤ jsOrQ ((defaultConfig.robust.bind Robust.weights).bind Weights.endpoints) 10 ∧
      (0 : ℚ) ≤ jsOrQ ((defaultConfig.robust.bind Robust.weights).bind Weights.midpoint) 10 ∧
      (0 : ℚ) ≤ huberDeltaOf defaultConfig ∧
      (0 : ℚ) ≤ jsOrQ (defaultConfig.optimizer.bind Optimizer.improvementTol) 1e-6) ∧
    (¬ (objectiveFunction flatMath (projectedGradDescent flatMath
          (fun p => objectiveFunction flatMath p twoPoints .monophasic defaultConfig "huber")
          (computeGrittyGuess flatMath .monophasic twoPoints defaultConfig) .monophasic
          defaultConfig) twoPoints .monophasic defaultConfig "huber" <
        objectiveFunction flatMath
          (computeGrittyGuess flatMath .monophasic twoPoints defaultConfig) twoPoints
          .monophasic defaultConfig "huber" *
          (1 - jsOrQ (defaultConfig.optimizer.bind Optimizer.improvementTol) 1e-6)) →
      fitCase1Strategy flatMath (fun _ _ => []) 0 .monophasic twoPoints defaultConfig
          "huber" =
        patternSearch flatMath 0 .monophasic
          (meshEval flatMath (fun _ _ => []) .monophasic
            (computeGrittyGuess flatMath .monophasic twoPoints defaultConfig) twoPoints
            defaultConfig "huber").best
          twoPoints defaultConfig "huber"
          (meshEval flatMath (fun _ _ => []) .monophasic
            (computeGrittyGuess flatMath .monophasic twoPoints defaultConfig) twoPoints
            defaultConfig "huber").steps
          (meshEval flatMath (fun _ _ => []) .monophasic
            (computeGrittyGuess flatMath .monophasic twoPoints defaultConfig) twoPoints
            defaultConfig "huber").span
          (meshEval flatMath (fun _ _ => []) .monophasic
            (computeGrittyGuess flatMath .monophasic twoPoints defaultConfig) twoPoints
            defaultConfig "huber").precision) ∧
    (objectiveFunction flatMath (projectedGradDescent flatMath
          (fun p => objectiveFunction flatMath p twoPoints .monophasic defaultConfig "huber")
          (computeGrittyGuess flatMath .monophasic twoPoints defaultConfig) .monophasic
          defaultConfig) twoPoints .monophasic defaultConfig "huber" <
        objectiveFunction flatMath
          (computeGrittyGuess flatMath .monophasic twoPoints defaultConfig) twoPoints
          .monophasic defaultConfig "huber" *
          (1 - jsOrQ (defaultConfig.optimizer.bind Optimizer.improvementTol) 1e-6) →
      fitCase1Strategy flatMath (fun _ _ => []) 0 .monophasic twoPoints defaultConfig
          "huber" =
        (if objectiveFunction flatMath (projectedGradDescent flatMath
              (fun p => objectiveFunction flatMath p twoPoints .monophasic defaultConfig
                "huber")
              (computeGrittyGuess flatMath .monophasic twoPoints defaultConfig) .monophasic
              defaultConfig) twoPoints .monophasic defaultConfig "huber" <
            objectiveFunction flatMath
              (computeGrittyGuess flatMath .monophasic twoPoints defaultConfig) twoPoints
              .monophasic defaultConfig "huber"
          then projectedGradDescent flatMath
            (fun p => objectiveFunction flatMath p twoPoints .monophasic defaultConfig
              "huber")
            (computeGrittyGuess flatMath .monophasic twoPoints defaultConfig) .monophasic
            defaultConfig
          else computeGrittyGuess flatMath .monophasic twoPoints defaultConfig)) :=
  ⟨⟨by with_unfolding_all decide, by with_unfolding_all decide,
      by with_unfolding_all decide, by with_unfolding_all decide⟩,
    fitCase1_decision_rule flatMath (fun _ _ => []) 0 .monophasic twoPoints
      defaultConfig "huber" (by with_unfolding_all decide)
      (by with_unfolding_all decide) (by with_unfolding_all decide)
      (by with_unfolding_all decide)⟩

/-! ## Claim C6 -/

theorem insertByKey_perm {α : Type} (key : α → ℚ) (x : α) :
    ∀ l : List α, insertByKey key x l ~ x :: l := by
  intro l
  induction l with
  | nil => exact List.Perm.refl _
  | cons y ys ih =>
    rw [insertByKey]
    split
    · exact (List.Perm.cons y ih).trans (List.Perm.swap x y ys)
    · exact List.Perm.refl _

theorem sortFold_perm {α : Type} (key : α → ℚ) :
    ∀ (l acc : List α), l.foldl (fun acc x => insertByKey key x acc) acc ~ acc ++ l := by
  intro l
  induction l with
  | nil => intro acc; simp
  | cons x xs ih =>
    intro acc
    calc (x :: xs).foldl (fun acc x => insertByKey key x acc) acc
        = xs.foldl (fun acc x => insertByKey key x acc) (insertByKey key x acc) := rfl
      _ ~ insertByKey key x acc ++ xs := ih _
      _ ~ (x :: acc) ++ xs := (insertByKey_perm key x acc).append_right xs
      _ = x :: (acc ++ xs) := rfl
      _ ~ acc ++ x :: xs := List.perm_middle.symm

theorem sortByKey_perm {α : Type} (key : α → ℚ) (l : List α) : sortByKey key l ~ l := by
  have := sortFold_perm key l []
  simpa [sortByKey] using this

theorem insertByKey_pairwise {α : Type} (key : α → ℚ) (x : α) :
    ∀ l : List α, l.Pairwise (fun a b => key a ≤ key b) →
      (insertByKey key x l).Pairwise (fun a b => key a ≤ key b) := by
  intro l
  induction l with
  | nil => intro _; exact List.pairwise_singleton _ x
  | cons y ys ih =>
    intro hs
    rw [insertByKey]
    rw [List.pairwise_cons] at hs
    split
    · next hycond =>
      rw [List.pairwise_cons]
      refine ⟨?_, ih hs.2⟩
      intro z hz
      rcases List.mem_cons.mp ((insertByKey_perm key x ys).mem_iff.mp hz) with hz' | hz'
      · rw [hz']; exact hycond
      · exact hs.1 z hz'
    · next hycond =>
      have hxy : key x ≤ key y := le_of_lt (lt_of_not_le hycond)
      rw [List.pairwise_cons]
      refine ⟨?_, List.pairwise_cons.mpr hs⟩
      intro z hz
      rcases List.mem_cons.mp hz with hz' | hz'
      · rw [hz']; exact hxy
      · exact le_trans hxy (hs.1 z hz')

theorem sortByKey_pairwise {α : Type} (key : α → ℚ) (l : List α) :
    (sortByKey key l).Pairwise (fun a b => key a ≤ key b) := by
  rw [sortByKey]
  exact foldl_preserve (fun acc : List α => acc.Pairwise (fun a b => key a ≤ key b))
    _ l [] (List.Pairwise.nil) (fun acc x hacc => insertByKey_pairwise key x acc hacc)

theorem sorted_perm_distinct_eq {α : Type} (key : α → ℚ) (l₁ l₂ : List α)
    (hp : l₁ ~ l₂)
    (hs₁ : l₁.Pairwise (fun a b => key a ≤ key b))
    (hs₂ : l₂.Pairwise (fun a b => key a ≤ key b))
    (hd : l₁.Pairwise (fun a b => key a ≠ key b)) : l₁ = l₂ := by
  haveI : IsAntisymm α (fun a b => key a < key b) :=
    ⟨fun a b h1 h2 => absurd h2 (lt_asymm h1)⟩
  have hd₂ : l₂.Pairwise (fun a b => key a ≠ key b) :=
    (hp.pairwise_iff (fun h => Ne.symm h)).mp hd
  have hlt₁ : l₁.Pairwise (fun a b => key a < key b) :=
    (hs₁.and hd).imp (fun h => lt_of_le_of_ne h.1 h.2)
  have hlt₂ : l₂.Pairwise (fun a b => key a < key b) :=
    (hs₂.and hd₂).imp (fun h => lt_of_le_of_ne h.1 h.2)
  exact List.eq_of_perm_of_sorted hp hlt₁ hlt₂

/-- With pairwise-distinct concentrations, the stable sort of any two
reorderings of the same points coincides. -/
theorem getSorted_eq_of_perm_distinct (l l' : List DataPoint) (hp : l ~ l')
    (hd : l.Pairwise (fun a b => a.concentration ≠ b.concentration)) :
    getSortedDataPoints l = getSortedDataPoints l' := by
  apply sorted_perm_distinct_eq DataPoint.concentration
  · exact ((sortByKey_perm _ l).trans hp).trans (sortByKey_perm _ l').symm
  · exact sortByKey_pairwise _ l
  · exact sortByKey_pairwise _ l'
  · exact ((sortByKey_perm _ l).pairwise_iff (fun h => Ne.symm h)).mpr hd

/-- A dataset with a duplicated concentration carrying two different
viabilities, and a reordering of it. -/
def dupPoints : List DataPoint := [⟨1, 0⟩, ⟨1, 100⟩, ⟨10, 50⟩]

/-- The same points as `dupPoints` with the two duplicates swapped. -/
def dupPointsReordered : List DataPoint := [⟨1, 100⟩, ⟨1, 0⟩, ⟨10, 50⟩]

/-- Primitives agreeing with the real `Math.log10` on the concentrations
used by the duplicate-concentration counterexample (`log10 1 = 0`,
`log10 10 = 1`, both exact in IEEE arithmetic too). -/
def logTenMath : JSMath := ⟨fun x => if x = 10 then 1 else 0, fun _ _ => 1⟩

/-- The shipped configuration with `minPointsForFit` lowered to 3. -/
def configMin3 : Config :=
  { defaultConfig with fitting := some ⟨some 3, some "fromCurveAtMax"⟩ }

/-- Claim C6, counterexample: the two lists are reorderings of each other,
yet after the internal stable sort by concentration the AUC reported by
`calculateMetrics` differs (3/4 versus 1/4): with duplicate concentrations
the stable sort preserves the different input orders of the duplicate
pair, and the trapezoid neighbouring the duplicates sees different
viability values. -/
theorem auc_reorder_counterexample :
    dupPointsReordered ~ dupPoints ∧
    (calculateMetrics logTenMath (some ⟨.monophasic, [1, 0, 1]⟩)
      (getSortedDataPoints dupPoints) configMin3 "hill" (fun _ _ _ => none)).auc ≠
    (calculateMetrics logTenMath (some ⟨.monophasic, [1, 0, 1]⟩)
      (getSortedDataPoints dupPointsReordered) configMin3 "hill"
      (fun _ _ _ => none)).auc := by
  constructor
  · with_unfolding_all decide
  · with_unfolding_all decide

/-- Claim C6 (amended): for every list of data points with pairwise
distinct concentrations and every reordering of it, all metrics computed
by `calculateMetrics` after the internal ascending sort by concentration —
in particular the AUC — are identical, because the sorted lists coincide.
(With duplicated concentrations the stable sort can order the duplicates
differently and the AUC may differ.) -/
theorem auc_reorder_invariant_of_distinct (M : JSMath) (fc : Option FittedCurve)
    (l l' : List DataPoint) (config : Config) (algo : String)
    (fitFn : List DataPoint → Config → String → Option (List ℚ))
    (hp : l ~ l')
    (hd : l.Pairwise (fun a b => a.concentration ≠ b.concentration)) :
    (calculateMetrics M fc (getSortedDataPoints l) config algo fitFn).auc =
    (calculateMetrics M fc (getSortedDataPoints l') config algo fitFn).auc := by
  rw [getSorted_eq_of_perm_distinct l l' hp hd]

/-- Witness for the amended claim C6 on a two-point dataset with distinct
concentrations. -/
theorem auc_reorder_invariant_of_distinct_witness :
    (([⟨1, 100⟩, ⟨10, 50⟩] : List DataPoint) ~ [⟨10, 50⟩, ⟨1, 100⟩] ∧
      ([⟨1, 100⟩, ⟨10, 50⟩] : List DataPoint).Pairwise
        (fun a b => a.concentration ≠ b.concentration)) ∧
    (calculateMetrics logTenMath (some ⟨.monophasic, [1, 0, 1]⟩)
      (getSortedDataPoints [⟨1, 100⟩, ⟨10, 50⟩]) configMin3 "hill"
      (fun _ _ _ => none)).auc =
    (calculateMetrics logTenMath (some ⟨.monophasic, [1, 0, 1]⟩)
      (getSortedDataPoints [⟨10, 50⟩, ⟨1, 100⟩]) configMin3 "hill"
      (fun _ _ _ => none)).auc :=
  ⟨⟨by with_unfolding_all decide, by with_unfolding_all decide⟩,
    auc_reorder_invariant_of_distinct logTenMath (some ⟨.monophasic, [1, 0, 1]⟩)
      [⟨1, 100⟩, ⟨10, 50⟩] [⟨10, 50⟩, ⟨1, 100⟩] configMin3 "hill" (fun _ _ _ => none)
      (by with_unfolding_all decide) (by with_unfolding_all decide)⟩

/-! ## Claim C10 -/

theorem insertByValue_eq_insertByKey (x : SimplexVertex) :
    ∀ l, insertByValue x l = insertByKey SimplexVertex.value x l := by
  intro l
  induction l with
  | nil => rfl
  | cons y ys ih => simp only [insertByValue, insertByKey, ih]

theorem sortByValue_eq_sortByKey (l : List SimplexVertex) :
    sortByValue l = sortByKey SimplexVertex.value l := by
  simp only [sortByValue, sortByKey]
  congr 1
  funext acc x
  exact insertByValue_eq_insertByKey x acc

theorem sortByValue_perm (l : List SimplexVertex) : sortByValue l ~ l := by
  rw [sortByValue_eq_sortByKey]
  exact sortByKey_perm _ l

theorem sortByValue_pairwise (l : List SimplexVertex) :
    (sortByValue l).Pairwise (fun a b => a.value ≤ b.value) := by
  rw [sortByValue_eq_sortByKey]
  exact sortByKey_pairwise _ l

theorem headD_mem {α : Type} (l : List α) (d : α) (hne : l ≠ []) : l.headD d ∈ l := by
  cases l with
  | nil => exact absurd rfl hne
  | cons a t => exact List.mem_cons_self a t

theorem pairwise_headD_le (l : List SimplexVertex)
    (hs : l.Pairwise (fun a b => a.value ≤ b.value)) :
    ∀ e ∈ l, (l.headD default).value ≤ e.value := by
  cases l with
  | nil => intro e he; exact absurd he (List.not_mem_nil e)
  | cons a t =>
    intro e he
    rcases List.mem_cons.mp he with h | h
    · rw [h]
      exact le_refl _
    · exact (List.pairwise_cons.mp hs).1 e h

theorem len1_getLastD {α : Type} (d : α) : ∀ s : List α, s.length = 1 → s.getLastD d = s.headD d
  | [_], _ => rfl

theorem len1_getD_sub {α : Type} (d : α) :
    ∀ s : List α, s.length = 1 → s.getD (s.length - 2) d = s.headD d
  | [_], _ => rfl

/-- The update step of a Nelder-Mead iteration preserves: nonemptiness,
value-consistency of the stored vertices, and the presence of a vertex of
value at most `Mv` (the best vertex is never degraded). -/
theorem nmUpdate_inv (fn : List ℚ → ℚ) (tol Mv : ℚ) (s : List SimplexVertex)
    (hne : s ≠ []) (hsorted : s.Pairwise (fun a b => a.value ≤ b.value))
    (hcons : ∀ e ∈ s, e.value = fn e.point)
    (hmin : ∃ e ∈ s, e.value ≤ Mv) :
    (nmUpdate fn tol s).1 ≠ [] ∧
    (∀ e ∈ (nmUpdate fn tol s).1, e.value = fn e.point) ∧
    (∃ e ∈ (nmUpdate fn tol s).1, e.value ≤ Mv) := by
  have hheadMv : (s.headD default).value ≤ Mv := by
    obtain ⟨e, he, hle⟩ := hmin
    exact le_trans (pairwise_headD_le s hsorted e he) hle
  have hheadmem : s.headD default ∈ s := headD_mem s default hne
  have hdropcons : ∀ (x : SimplexVertex), x.value = fn x.point →
      ∀ e ∈ s.dropLast ++ [x], e.value = fn e.point := by
    intro x hx e he
    rcases List.mem_append.mp he with h | h
    · exact hcons e (List.dropLast_subset s h)
    · rw [List.mem_singleton.mp h]
      exact hx
  have hheaddrop : 2 ≤ s.length → s.headD default ∈ s.dropLast := by
    intro h2
    match s, h2 with
    | a :: b :: t, _ =>
      show a ∈ (a :: b :: t).dropLast
      simp [List.dropLast]
  have hlen1 : s.length = 1 ∨ 2 ≤ s.length := by
    rcases Nat.lt_or_ge s.length 2 with h | h
    · left
      have := List.length_pos.mpr hne
      omega
    · right
      exact h
  rw [nmUpdate]
  dsimp only
  split
  · next hrefl =>
    dsimp only
    split
    · next hext =>
      refine ⟨by simp, hdropcons _ rfl, ?_⟩
      exact ⟨_, List.mem_append.mpr (Or.inr (List.mem_singleton.mpr rfl)),
        le_trans (le_of_lt (lt_trans hext hrefl)) hheadMv⟩
    · refine ⟨by simp, hdropcons _ rfl, ?_⟩
      exact ⟨_, List.mem_append.mpr (Or.inr (List.mem_singleton.mpr rfl)),
        le_trans (le_of_lt hrefl) hheadMv⟩
  · split
    · next hnotbest hsecond =>
      refine ⟨by simp, hdropcons _ rfl, ?_⟩
      rcases hlen1 with h1 | h2
      · exfalso
        rw [len1_getD_sub default s h1] at hsecond
        exact hnotbest hsecond
      · exact ⟨s.headD default, List.mem_append.mpr (Or.inl (hheaddrop h2)), hheadMv⟩
    · split <;> split
      · refine ⟨by simp, hdropcons _ rfl, ?_⟩
        rcases hlen1 with h1 | h2
        · have heq : s.getLastD default = s.headD default := len1_getLastD default s h1
          exact ⟨_, List.mem_append.mpr (Or.inr (List.mem_singleton.mpr rfl)),
            le_trans (le_of_lt (lt_of_lt_of_eq (by assumption)
              (congrArg SimplexVertex.value heq))) hheadMv⟩
        · exact ⟨s.headD default, List.mem_append.mpr (Or.inl (hheaddrop h2)), hheadMv⟩
      · refine ⟨by simp, ?_, ?_⟩
        · intro e he
          rcases List.mem_cons.mp he with h | h
          · rw [h]
            exact hcons _ hheadmem
          · simp only [List.mem_map] at h
            obtain ⟨f, _, rfl⟩ := h
            rfl
        · exact ⟨s.headD default, List.mem_cons_self _ _, hheadMv⟩
      · refine ⟨by simp, hdropcons _ rfl, ?_⟩
        rcases hlen1 with h1 | h2
        · have heq : s.getLastD default = s.headD default := len1_getLastD default s h1
          exact ⟨_, List.mem_append.mpr (Or.inr (List.mem_singleton.mpr rfl)),
            le_trans (le_of_lt (lt_of_lt_of_eq (by assumption)
              (congrArg SimplexVertex.value heq))) hheadMv⟩
        · exact ⟨s.headD default, List.mem_append.mpr (Or.inl (hheaddrop h2)), hheadMv⟩
      · refine ⟨by simp, ?_, ?_⟩
        · intro e he
          rcases List.mem_cons.mp he with h | h
          · rw [h]
            exact hcons _ hheadmem
          · simp only [List.mem_map] at h
            obtain ⟨f, _, rfl⟩ := h
            rfl
        · exact ⟨s.headD default, List.mem_cons_self _ _, hheadMv⟩

theorem nmIter_inv (fn : List ℚ → ℚ) (tol Mv : ℚ) (l : List SimplexVertex)
    (hne : l ≠ []) (hcons : ∀ e ∈ l, e.value = fn e.point)
    (hmin : ∃ e ∈ l, e.value ≤ Mv) :
    (nmIter fn tol l).1 ≠ [] ∧
    (∀ e ∈ (nmIter fn tol l).1, e.value = fn e.point) ∧
    (∃ e ∈ (nmIter fn tol l).1, e.value ≤ Mv) := by
  have hperm : sortByValue l ~ l := sortByValue_perm l
  rw [nmIter]
  refine nmUpdate_inv fn tol Mv (sortByValue l) ?_ (sortByValue_pairwise l) ?_ ?_
  · intro h
    apply hne
    rw [← List.length_eq_zero, ← hperm.length_eq, h]
    rfl
  · exact fun e he => hcons e (hperm.mem_iff.mp he)
  · obtain ⟨e, he, hle⟩ := hmin
    exact ⟨e, hperm.mem_iff.mpr he, hle⟩

theorem nmLoop_inv (fn : List ℚ → ℚ) (tol Mv : ℚ) (fuel : ℕ) :
    ∀ l : List SimplexVertex, l ≠ [] → (∀ e ∈ l, e.value = fn e.point) →
      (∃ e ∈ l, e.value ≤ Mv) →
      (nmLoop fn tol fuel l ≠ [] ∧
        (∀ e ∈ nmLoop fn tol fuel l, e.value = fn e.point) ∧
        (∃ e ∈ nmLoop fn tol fuel l, e.value ≤ Mv)) := by
  induction fuel with
  | zero => intro l h1 h2 h3; exact ⟨h1, h2, h3⟩
  | succ n ih =>
    intro l h1 h2 h3
    rw [nmLoop]
    obtain ⟨g1, g2, g3⟩ := nmIter_inv fn tol Mv l h1 h2 h3
    split
    · exact ⟨g1, g2, g3⟩
    · exact ih _ g1 g2 g3

/-- Claim C10: for every scalar objective and nonempty initial simplex,
the returned point of `nelderMead` has objective value at most the
objective value of every initial simplex vertex: no iteration step ever
degrades the best vertex. -/
theorem nelderMead_never_worse (fn : List ℚ → ℚ) (initialSimplex : List (List ℚ))
    (config : Config) (hne : initialSimplex ≠ []) :
    ∀ p0 ∈ initialSimplex, fn (nelderMead fn initialSimplex config) ≤ fn p0 := by
  intro p0 hp0
  rw [nelderMead]
  set fuel := jsOrN (config.optimizer.bind Optimizer.maxIterations)
    (jsOrN config.maxIterations 50000) with hfuel
  set tol := jsOrQ (config.optimizer.bind Optimizer.convergenceTolerance)
    (jsOrQ config.convergenceTolerance 1e-6) with htol
  have hinit1 : initialSimplex.map (fun pt => (⟨pt, fn pt⟩ : SimplexVertex)) ≠ [] := by
    simpa using hne
  have hinit2 : ∀ e ∈ initialSimplex.map (fun pt => (⟨pt, fn pt⟩ : SimplexVertex)),
      e.value = fn e.point := by
    intro e he
    simp only [List.mem_map] at he
    obtain ⟨pt, _, rfl⟩ := he
    rfl
  have hinit3 : ∃ e ∈ initialSimplex.map (fun pt => (⟨pt, fn pt⟩ : SimplexVertex)),
      e.value ≤ fn p0 :=
    ⟨⟨p0, fn p0⟩, List.mem_map.mpr ⟨p0, hp0, rfl⟩, le_refl _⟩
  obtain ⟨g1, g2, g3⟩ := nmLoop_inv fn tol (fn p0) fuel _ hinit1 hinit2 hinit3
  set final := nmLoop fn tol fuel
    (initialSimplex.map (fun pt => (⟨pt, fn pt⟩ : SimplexVertex))) with hfinal
  have hperm : sortByValue final ~ final := sortByValue_perm final
  have hsne : sortByValue final ≠ [] := by
    intro h
    apply g1
    rw [← List.length_eq_zero, ← hperm.length_eq, h]
    rfl
  obtain ⟨e, he, hle⟩ := g3
  have hheadle : ((sortByValue final).headD default).value ≤ e.value :=
    pairwise_headD_le (sortByValue final) (sortByValue_pairwise final)
      e (hperm.mem_iff.mpr he)
  have hheadcons : ((sortByValue final).headD default).value =
      fn ((sortByValue final).headD default).point :=
    g2 _ (hperm.mem_iff.mp (headD_mem _ default hsne))
  calc fn ((sortByValue final).headD default).point
      = ((sortByValue final).headD default).value := hheadcons.symm
    _ ≤ e.value := hheadle
    _ ≤ fn p0 := hle

/-- Witness for claim C10: a one-dimensional quadratic objective with a
two-vertex simplex and a two-iteration cap. -/
theorem nelderMead_never_worse_witness :
    (([[2], [1]] : List (List ℚ)) ≠ [] ∧ ([1] : List ℚ) ∈ ([[2], [1]] : List (List ℚ))) ∧
    (fun p : List ℚ => p.getD 0 0 * p.getD 0 0)
        (nelderMead (fun p : List ℚ => p.getD 0 0 * p.getD 0 0) [[2], [1]]
          { defaultConfig with
              optimizer := some ⟨some 2, some 1e-6, some 200, some 1.0, some 1e-6,
                some 10, some 1e-6⟩ }) ≤
      (fun p : List ℚ => p.getD 0 0 * p.getD 0 0) [1] :=
  ⟨⟨by with_unfolding_all decide, by with_unfolding_all decide⟩,
    nelderMead_never_worse (fun p : List ℚ => p.getD 0 0 * p.getD 0 0) [[2], [1]]
      { defaultConfig with
          optimizer := some ⟨some 2, some 1e-6, some 200, some 1.0, some 1e-6,
            some 10, some 1e-6⟩ }
      (by with_unfolding_all decide) [1] (by with_unfolding_all decide)⟩

/-! ## Claim C7 -/

/-- The shipped configuration with the Nelder-Mead iteration cap set
to 1, to keep the counterexample evaluation small. -/
def cfgOneIter : Config :=
  { defaultConfig with
      optimizer := some ⟨some 1, some 1e-6, some 200, some 1.0, some 1e-6, some 10,
        some 1e-6⟩ }

/-- A two-point dataset on which the multi-start IC50 helper returns
different parameter vectors for `'huber'` and `'hill'`. -/
def divergingPoints : List DataPoint := [⟨1, 100⟩, ⟨10, 40⟩]

set_option maxRecDepth 4000 in
/-- Claim C7, counterexample: `fitMonophasicForIC50` passes the algorithm
name through to `objectiveFunction` (models.js line 460), so its
Nelder-Mead runs minimize the configured loss, not plain squared error:
on this dataset the returned vectors differ between `'huber'` and
`'hill'` (`[3/2, 9/25, 1]` versus `[3/2, 189/500, 1]`). -/
theorem ic50_fit_algo_dependent_counterexample :
    fitMonophasicForIC50 flatMath divergingPoints cfgOneIter "huber" ≠
    fitMonophasicForIC50 flatMath divergingPoints cfgOneIter "hill" := by
  with_unfolding_all decide

theorem ic50Fold_min (M : JSMath) (pts : List DataPoint) (config : Config)
    (algo : String) :
    ∀ (seeds : List (List ℚ)) (b : List ℚ × ℚ), b.2 = ic50Sse M pts b.1 →
      ∃ r : List ℚ × ℚ,
        seeds.foldl (ic50Step M pts config algo) (some b) = some r ∧
        r.2 = ic50Sse M pts r.1 ∧
        (r = b ∨ ∃ s ∈ seeds, r.1 = ic50Candidate M pts config algo s) ∧
        r.2 ≤ b.2 ∧
        ∀ s' ∈ seeds, r.2 ≤ ic50Sse M pts (ic50Candidate M pts config algo s') := by
  intro seeds
  induction seeds with
  | nil =>
    intro b hb
    exact ⟨b, rfl, hb, Or.inl rfl, le_refl _, fun s' hs' => absurd hs' (List.not_mem_nil s')⟩
  | cons s ss ih =>
    intro b hb
    rw [List.foldl_cons]
    by_cases hlt : ic50Sse M pts (ic50Candidate M pts config algo s) < b.2
    · have hstep : ic50Step M pts config algo (some b) s =
          some (ic50Candidate M pts config algo s,
            ic50Sse M pts (ic50Candidate M pts config algo s)) := by
        rw [ic50Step]
        rw [if_pos hlt]
      rw [hstep]
      obtain ⟨r, hr1, hr2, hr3, hr4, hr5⟩ := ih (ic50Candidate M pts config algo s,
        ic50Sse M pts (ic50Candidate M pts config algo s)) rfl
      refine ⟨r, hr1, hr2, ?_, le_trans hr4 (le_of_lt hlt), ?_⟩
      · rcases hr3 with h | ⟨s', hs', h⟩
        · exact Or.inr ⟨s, List.mem_cons_self s ss, by rw [h]⟩
        · exact Or.inr ⟨s', List.mem_cons_of_mem s hs', h⟩
      · intro s' hs'
        rcases List.mem_cons.mp hs' with h | h
        · rw [h]
          exact hr4
        · exact hr5 s' h
    · have hstep : ic50Step M pts config algo (some b) s = some b := by
        rw [ic50Step]
        rw [if_neg hlt]
      rw [hstep]
      obtain ⟨r, hr1, hr2, hr3, hr4, hr5⟩ := ih b hb
      refine ⟨r, hr1, hr2, ?_, hr4, ?_⟩
      · rcases hr3 with h | ⟨s', hs', h⟩
        · exact Or.inl h
        · exact Or.inr ⟨s', List.mem_cons_of_mem s hs', h⟩
      · intro s' hs'
        rcases List.mem_cons.mp hs' with h | h
        · rw [h]
          exact le_trans hr4 (not_lt.mp hlt)
        · exact hr5 s' h

/-- Claim C7 (amended): `fitMonophasicForIC50` runs its three Nelder-Mead
multi-starts against the configured loss (the algorithm name is passed
through to the objective), so different algorithm names can return
different vectors; the returned vector is the output of one of the three
seed runs, chosen by lowest sum of squared residuals on the
percent-viability scale (`r2ForParams`' `sse`). -/
theorem ic50_fit_selection (M : JSMath) (pts : List DataPoint) (config : Config)
    (algo : String) (h2 : 2 ≤ pts.length) :
    ∃ p : List ℚ,
      fitMonophasicForIC50 M pts config algo = some p ∧
      (∃ s ∈ ic50Seeds M pts, p = ic50Candidate M pts config algo s) ∧
      ∀ s' ∈ ic50Seeds M pts,
        ic50Sse M pts p ≤ ic50Sse M pts (ic50Candidate M pts config algo s') := by
  rw [fitMonophasicForIC50, if_neg (not_lt.mpr h2)]
  obtain ⟨sA, sB, sC, hseeds⟩ : ∃ a b c, ic50Seeds M pts = [a, b, c] := ⟨_, _, _, rfl⟩
  rw [hseeds]
  rw [List.foldl_cons]
  have hfirst : ic50Step M pts config algo none sA =
      some (ic50Candidate M pts config algo sA,
        ic50Sse M pts (ic50Candidate M pts config algo sA)) := rfl
  rw [hfirst]
  obtain ⟨r, hr1, hr2, hr3, hr4, hr5⟩ := ic50Fold_min M pts config algo [sB, sC]
    (ic50Candidate M pts config algo sA,
      ic50Sse M pts (ic50Candidate M pts config algo sA)) rfl
  rw [hr1]
  refine ⟨r.1, rfl, ?_, ?_⟩
  · rcases hr3 with h | ⟨s', hs', h⟩
    · exact ⟨sA, List.mem_cons_self _ _, by rw [h]⟩
    · exact ⟨s', List.mem_cons_of_mem sA hs', h⟩
  · intro s' hs'
    rw [← hr2]
    rcases List.mem_cons.mp hs' with h | h
    · rw [h]
      exact hr4
    · exact hr5 s' h

/-- Witness for the amended claim C7 on the diverging dataset. -/
theorem ic50_fit_selection_witness :
    2 ≤ divergingPoints.length ∧
    (∃ p : List ℚ,
      fitMonophasicForIC50 flatMath divergingPoints cfgOneIter "huber" = some p ∧
      (∃ s ∈ ic50Seeds flatMath divergingPoints,
        p = ic50Candidate flatMath divergingPoints cfgOneIter "huber" s) ∧
      ∀ s' ∈ ic50Seeds flatMath divergingPoints,
        ic50Sse flatMath divergingPoints p ≤
          ic50Sse flatMath divergingPoints
            (ic50Candidate flatMath divergingPoints cfgOneIter "huber" s')) :=
  ⟨by with_unfolding_all decide,
    ic50_fit_selection flatMath divergingPoints cfgOneIter "huber"
      (by with_unfolding_all decide)⟩

end DDR
